import Mathlib

/-!
# Sailing conversions face

A shallow embedding of `watch-faces/complication/sailing_conversions_face.c`
and `sailing_conversions_face.h`.

Conventions of the embedding:

* `uint8_t` and `uint32_t` fields are natural numbers; every C operation that can
  wrap is written with an explicit `% 256` or `% 4294967296`.
* `sailing_page_t` is the enumeration ordinal (a natural number): the code itself
  does arithmetic on it (`pg++`, `pg--`, `pg == SCREEN_NUM - 1`).
* `double` is idealised as exact rational arithmetic (`ℚ`). The C library function
  `pow` is not part of the repository and is taken as a parameter `pow : ℚ → ℚ → ℚ`.
* An array read outside the array, or a division by zero, is undefined behaviour in
  C; the embedding makes such a function return `none`.
* `display` only drives the LCD and the buzzer and never writes the state, so the
  event loop is embedded as a state transformer and `display` as a separate
  function from the state to what is shown.
* `display` composes the text of each page without regard to the size of
  `char buf[7]`; `display_within_buf` adds the two `sprintf` calls into that buffer
  and is `none` when one of them writes past its end. Exact values and doubles can
  differ in the last binary place; statements about which number is shown are
  restricted to entered values in 0..9999, the range of the digit editor.
-/

namespace SailingConversions

/-! ## Unit catalog -/

/-- Record `sailing_unit`: display name, unit as represented in base units, and
additive constant. -/
structure sailing_unit where
  name : String
  conv_factor : ℚ
  linear_factor : Int

def TICK_FREQ : Nat := 4

def MEASURES_COUNT : Nat := 2

def SPEED : Nat := 0

def DISTANCE : Nat := 1

def sailing_measures : List String := ["speed", "dist"]

def sailing_measures_custom : List String := ["speed", "dist"]

def SPEED_COUNT : Nat := 4

def DISTANCE_COUNT : Nat := 2

def sailing_units_count : List Nat := [SPEED_COUNT, DISTANCE_COUNT]

def speeds : List sailing_unit :=
  [ ⟨" n&/s", 1, 0⟩,
    ⟨"kn&/h", 1000 / 3600, 0⟩,
    ⟨"  kn", 1852 / 3600, 0⟩,
    ⟨" bft", 1, 0⟩ ]

def distances : List sailing_unit :=
  [ ⟨" kn&", 1, 0⟩,
    ⟨" nn&", 1852 / 1000, 0⟩ ]

/-- The two note sequences played on the result page. -/
inductive buzzer_sequence where
  | calc_success_seq
  | calc_fail_seq
deriving DecidableEq

/-! ## State -/

def SCREEN_NUM : Nat := 5

def sailing_measurement : Nat := 0

def sailing_from : Nat := 1

def sailing_to : Nat := 2

def sailing_input : Nat := 3

def sailing_result : Nat := 4

def DISPLAY_DIGITS : Nat := 4

/-- Settings when the app is running (`sailing_conversions_state_t`). -/
structure sailing_conversions_state_t where
  pg : Nat
  measurement_i : Nat
  from_i : Nat
  to_i : Nat
  selection_value : Nat
  selection_index : Nat
  alarm_held : Bool
deriving DecidableEq

/-- Resets all state variables to 0. -/
def reset_state (state : sailing_conversions_state_t) : sailing_conversions_state_t :=
  { state with
    pg := sailing_measurement
    measurement_i := 0
    from_i := 0
    to_i := 0
    selection_value := 0
    selection_index := 0
    alarm_held := false }

/-- Increments index pointer by 1, wrapping: `(index)++; index %= wrap` on a
`uint8_t` index. A zero `wrap` is a division by zero. -/
def increment_wrapping (index wrap : Nat) : Option Nat :=
  if wrap = 0 then none else some ((index + 1) % 256 % wrap)

/-- Loop of `pow_10`: `result *= 10`, `n` times, on a `uint32_t`. -/
def pow_10 : Nat → Nat
  | 0 => 1
  | n + 1 => pow_10 n * 10 % 4294967296

/-- The `uint8_t` argument that `DISPLAY_DIGITS - 1 - state->selection_index` (an
`int`) becomes when it is passed to `pow_10`. -/
def digit_exponent (selection_index : Nat) : Nat :=
  (((DISPLAY_DIGITS : Int) - 1 - (selection_index : Int)) % 256).toNat

/-- Returns correct list of units for the measurement index. -/
def get_unit_list (measurement_i : Nat) : List sailing_unit :=
  match measurement_i with
  | 0 => speeds
  | 1 => distances
  | _ => speeds

/-- Increment digit by 1 in input (wraps). `none` when the divisor
`pow_10(...)` is zero. -/
def increment_input (state : sailing_conversions_state_t) :
    Option sailing_conversions_state_t :=
  let p := pow_10 (digit_exponent state.selection_index)
  if p = 0 then none
  else
    let digit := state.selection_value / p % 10 % 256
    if digit ≠ 9 then
      some { state with selection_value := (state.selection_value + p) % 4294967296 }
    else
      some { state with
             selection_value :=
               (state.selection_value + 4294967296 - 9 * p % 4294967296) % 4294967296 }

/-! ## Display -/

/-- What is written on the bottom line of the LCD. -/
inductive bottom_text where
  /-- A fixed text: a measurement name or a unit name. -/
  | text (s : String)
  /-- The entered value printed with `"  %04u"`; `blanked` is the position
  overwritten with a space in the off half of the blink. -/
  | input (value : Nat) (blanked : Option Nat)
  /-- The text `" Error"`. -/
  | error
  /-- The number printed with `"%6u"`; `zeros` counts the positions (7, then 8)
  forced to the character 0. -/
  | number (rounded : Nat) (zeros : Nat)
deriving DecidableEq

/-- What one call of `display` puts on the LCD and the buzzer. -/
structure lcd where
  top : String
  bottom : bottom_text
  bell : Bool
  sequence : Option buzzer_sequence
deriving DecidableEq

/-- The two `double` values that the result page computes: `to_base` and
`conversion`. `none` when a unit-table read is out of bounds. -/
def conversion (pow : ℚ → ℚ → ℚ) (state : sailing_conversions_state_t) :
    Option (ℚ × ℚ) :=
  match (get_unit_list state.measurement_i)[state.from_i]?,
        (get_unit_list state.measurement_i)[state.to_i]? with
  | some froms, some tos =>
    let to_base : ℚ :=
      if state.measurement_i = SPEED ∧ state.from_i = 3 then
        836 / 1000 * pow state.selection_value (3 / 2) / 10
      else
        (state.selection_value : ℚ) * froms.conv_factor + ((100 * froms.linear_factor : Int) : ℚ)
    let conv : ℚ :=
      if state.measurement_i = SPEED ∧ state.to_i = 3 then
        112684 / 100000 * pow (to_base * 10) (2 / 3)
      else
        (to_base - ((100 * tos.linear_factor : Int) : ℚ)) / tos.conv_factor
    some (to_base, conv)
  | _, _ => none

/-- The conversion `uint32_t rounded = conversion + .5` of a `double` in range:
truncation. -/
def to_uint32 (x : ℚ) : Nat := ⌊x⌋.toNat % 4294967296

/-- The result page of `display`: what the code composes for the LCD and the
buzzer. The size of the buffer that `sprintf` prints the number into is not looked
at here, see `display_within_buf`. -/
def display_result (pow : ℚ → ℚ → ℚ) (should_sound : Bool)
    (state : sailing_conversions_state_t) : Option lcd :=
  match conversion pow state with
  | none => none
  | some (_, conv) =>
    if conv ≥ 1000000 ∨ conv < 0 then
      some { top := "Res =", bottom := bottom_text.error, bell := true,
             sequence := if should_sound then some buzzer_sequence.calc_fail_seq else none }
    else
      let rounded := to_uint32 (conv + 1 / 2)
      some { top := "Res =",
             bottom := bottom_text.number rounded
               (if rounded < 10 then 2 else if rounded < 100 then 1 else 0),
             bell := false,
             sequence := if should_sound then some buzzer_sequence.calc_success_seq else none }

/-- The function `display`: `watch_clear_display()` followed by the page's text.
`should_sound` is the value of `movement_button_should_sound()`. -/
def display (pow : ℚ → ℚ → ℚ) (should_sound : Bool)
    (state : sailing_conversions_state_t) (subsec : Nat) : Option lcd :=
  match state.pg with
  | 0 =>
    match sailing_measures[state.measurement_i]? with
    | some measurement_name =>
      some { top := "Unit", bottom := bottom_text.text measurement_name, bell := false,
             sequence := none }
    | none => none
  | 1 =>
    match (get_unit_list state.measurement_i)[state.from_i]? with
    | some u => some { top := "Frm", bottom := bottom_text.text u.name, bell := false,
                       sequence := none }
    | none => none
  | 2 =>
    match (get_unit_list state.measurement_i)[state.to_i]? with
    | some u => some { top := " to", bottom := bottom_text.text u.name, bell := false,
                       sequence := none }
    | none => none
  | 3 =>
    some { top := "Input",
           bottom := bottom_text.input state.selection_value
             (if subsec % 2 ≠ 0 then some (6 + state.selection_index) else none),
           bell := false, sequence := none }
  | 4 => display_result pow should_sound state
  | _ => some { top := "", bottom := bottom_text.text "", bell := false, sequence := none }

/-! ## Event loop -/

/-- Modelled from the spec: the event kinds of `movement.h` (not part of the
sources at hand) that the loop distinguishes; every other kind is
`EVENT_OTHER`. -/
inductive movement_event_type_t where
  | EVENT_ACTIVATE
  | EVENT_TICK
  | EVENT_ALARM_BUTTON_UP
  | EVENT_LIGHT_BUTTON_DOWN
  | EVENT_LIGHT_BUTTON_UP
  | EVENT_LIGHT_LONG_PRESS
  | EVENT_ALARM_LONG_PRESS
  | EVENT_ALARM_LONG_UP
  | EVENT_TIMEOUT
  | EVENT_OTHER
deriving DecidableEq

/-- Modelled from the spec: an event of `movement.h` carries a kind and a
sub-second counter. -/
structure movement_event_t where
  event_type : movement_event_type_t
  subsecond : Nat
deriving DecidableEq

open movement_event_type_t

/-- The `EVENT_ALARM_BUTTON_UP` case: cycles options. -/
def alarm_button_up (state : sailing_conversions_state_t) :
    Option sailing_conversions_state_t :=
  let cycled : Option sailing_conversions_state_t :=
    match state.pg with
    | 0 =>
      (increment_wrapping state.measurement_i MEASURES_COUNT).map
        fun m => { state with measurement_i := m }
    | 1 =>
      (sailing_units_count[state.measurement_i]?).bind fun wrap =>
      (increment_wrapping state.from_i wrap).map
        fun i => { state with from_i := i }
    | 2 =>
      (sailing_units_count[state.measurement_i]?).bind fun wrap =>
      (increment_wrapping state.to_i wrap).bind fun i =>
      if state.from_i = i then
        (increment_wrapping i wrap).map fun j => { state with to_i := j }
      else
        some { state with to_i := i }
    | 3 => increment_input state
    | _ => some state
  cycled.map fun s => { s with alarm_held := false }

/-- The `EVENT_LIGHT_BUTTON_UP` case: moves between the digits of the input, or
forward one page. -/
def light_button_up (state : sailing_conversions_state_t) :
    Option sailing_conversions_state_t :=
  let moved : Option sailing_conversions_state_t :=
    if state.pg = sailing_input then
      if (state.selection_index : Int) <
          ((DISPLAY_DIGITS : Int) - 1) -
            2 * (if state.measurement_i = SPEED ∧ state.from_i = 3 then 1 else 0) then
        some { state with selection_index := (state.selection_index + 1) % 256 }
      else
        some { state with pg := state.pg + 1 }
    else if state.pg = SCREEN_NUM - 1 then
      some (reset_state state)
    else if state.pg = sailing_from ∧ state.from_i = state.to_i then
      (sailing_units_count[state.measurement_i]?).bind fun wrap =>
      (increment_wrapping state.to_i wrap).map
        fun i => { state with to_i := i, pg := state.pg + 1 }
    else
      some { state with pg := state.pg + 1 }
  moved.map fun s => { s with alarm_held := false }

/-- The `EVENT_LIGHT_LONG_PRESS` case: moves backwards through pages, resetting
certain values. -/
def light_long_press (state : sailing_conversions_state_t) :
    sailing_conversions_state_t :=
  if state.pg ≠ sailing_measurement then
    let cleared : sailing_conversions_state_t :=
      match state.pg with
      | 0 => { state with measurement_i := 0 }
      | 1 => { state with from_i := 0 }
      | 2 => { state with to_i := 0 }
      | 3 => { state with selection_index := 0, selection_value := 0 }
      | 4 => { state with selection_index := 0 }
      | _ => state
    { cleared with pg := cleared.pg - 1, alarm_held := false }
  else state

/-- The state transformer of `sailing_conversions_face_loop`. `none` is undefined
behaviour (a read outside `sailing_units_count`, or a division by zero). -/
def sailing_conversions_face_loop (event : movement_event_t)
    (state : sailing_conversions_state_t) : Option sailing_conversions_state_t :=
  match event.event_type with
  | EVENT_ACTIVATE => some state
  | EVENT_TICK =>
    if state.pg = sailing_input then
      if state.alarm_held ∧ event.subsecond % 2 ≠ 0 then increment_input state
      else some state
    else some state
  | EVENT_ALARM_BUTTON_UP => alarm_button_up state
  | EVENT_LIGHT_BUTTON_DOWN => some state
  | EVENT_LIGHT_BUTTON_UP => light_button_up state
  | EVENT_LIGHT_LONG_PRESS => some (light_long_press state)
  | EVENT_ALARM_LONG_PRESS =>
    if state.pg = sailing_input then some { state with alarm_held := true }
    else some state
  | EVENT_ALARM_LONG_UP => some { state with alarm_held := false }
  | EVENT_TIMEOUT => some state
  | EVENT_OTHER => some state

/-- States reachable from the reset state by events delivered to the loop. -/
inductive Reachable : sailing_conversions_state_t → Prop where
  | reset (s : sailing_conversions_state_t) : Reachable (reset_state s)
  | step {s t : sailing_conversions_state_t} (e : movement_event_t) :
      Reachable s → sailing_conversions_face_loop e s = some t → Reachable t

/-- The number printed on the bottom line, when one is. -/
def shown_number (l : lcd) : Option Nat :=
  match l.bottom with
  | bottom_text.number rounded _ => some rounded
  | _ => none

/-- The decimal digit of a four-digit value at cursor position `k` (place value
`10 ^ (3 - k)`). -/
def decimal_digit (value k : Nat) : Nat :=
  value / 10 ^ (DISPLAY_DIGITS - 1 - k) % 10

/-- The function `increment_input` applied `n` times in a row. -/
def increment_input_times : Nat → sailing_conversions_state_t →
    Option sailing_conversions_state_t
  | 0, state => some state
  | n + 1, state => (increment_input_times n state).bind increment_input

/-- Inductive invariant of the event loop. -/
structure Inv (s : sailing_conversions_state_t) : Prop where
  pg_le : s.pg ≤ 4
  measurement_lt : s.measurement_i < 2
  speed_range : s.measurement_i = 0 → s.from_i < 4 ∧ s.to_i < 4
  distance_range : s.measurement_i = 1 → s.from_i < 2 ∧ s.to_i < 2
  early_to : s.pg ≤ 1 → s.to_i = 0
  early_from : s.pg = 0 → s.from_i = 0
  distinct : 2 ≤ s.pg → s.from_i ≠ s.to_i
  early_input : s.pg ≤ 2 → s.selection_index = 0 ∧ s.selection_value = 0
  value_le : s.selection_value ≤ 9999
  index_le : s.selection_index ≤ 3
  wind_force : s.measurement_i = 0 → s.from_i = 3 →
    s.selection_index ≤ 1 ∧ s.selection_value % 100 = 0
  held_page : s.alarm_held = true → s.pg = 3

/-- The host delivers events to the loop one at a time; `run` feeds a list of
events to it, first to last. -/
def run : List movement_event_t → sailing_conversions_state_t →
    Option sailing_conversions_state_t
  | [], state => some state
  | e :: es, state => (sailing_conversions_face_loop e state).bind (run es)

/-- The value `pow x y` is within a relative error of 1/1000 of the real power
`x ^ y`. -/
def pow_accurate (pow : ℚ → ℚ → ℚ) (x y : ℚ) : Prop :=
  |((pow x y : ℚ) : ℝ) - (x : ℝ) ^ (y : ℝ)| ≤ (x : ℝ) ^ (y : ℝ) / 1000

/-- The target unit indices selected one after the other by `n` alarm button ups
in a row. -/
def visited_targets : Nat → sailing_conversions_state_t → List Nat
  | 0, _ => []
  | n + 1, state =>
    match alarm_button_up state with
    | some t => t.to_i :: visited_targets n t
    | none => []

/-- The target index after one alarm button up on the TargetUnit page, for a
category of `n` units and source index `f`: the two `increment_wrapping` calls of
the `sailing_to` case. -/
def next_target (n f t : Nat) : Nat :=
  if f = (t + 1) % 256 % n then ((t + 1) % 256 % n + 1) % 256 % n else (t + 1) % 256 % n

/-- Bytes that `sprintf` writes for a format of `lead` literal characters followed by
one unsigned conversion of minimum width `width`, the terminating zero included
(`"%6u"`: `lead` 0, `width` 6; `"  %04u"`: `lead` 2, `width` 4). A number with more
digits than `width` is printed in full. -/
def sprintf_size (lead width value : Nat) : Nat :=
  lead + max width (Nat.log 10 value + 1) + 1

/-- The function `display` with its two `sprintf` calls into `char buf[7]` taken
into account: `none` (undefined behaviour) when a call writes more than 7 bytes,
which is the case for an entered value above 9999 on the input page and for a
rounded result above 999999 on the result page. -/
def display_within_buf (pow : ℚ → ℚ → ℚ) (should_sound : Bool)
    (state : sailing_conversions_state_t) (subsec : Nat) : Option lcd :=
  match display pow should_sound state subsec with
  | none => none
  | some l =>
    match l.bottom with
    | bottom_text.input value _ => if sprintf_size 2 4 value ≤ 7 then some l else none
    | bottom_text.number rounded _ => if sprintf_size 0 6 rounded ≤ 7 then some l else none
    | _ => some l

/-! ## Conversion engine: general facts -/

theorem to_uint32_of_lt (x : ℚ) (h0 : 0 ≤ x) (h1 : x < 1000001) :
    ((to_uint32 x : Nat) : Int) = ⌊x⌋ := by
  unfold to_uint32
  have hf0 : 0 ≤ ⌊x⌋ := Int.floor_nonneg.mpr h0
  have hf1 : ⌊x⌋ < 1000001 := by
    have : ⌊x⌋ < ((1000001 : Int)) := Int.floor_lt.mpr (by exact_mod_cast h1)
    exact this
  omega

theorem display_result_page (pow : ℚ → ℚ → ℚ) (sound : Bool)
    (s : sailing_conversions_state_t) (subsec : Nat) (h : s.pg = sailing_result) :
    display pow sound s subsec = display_result pow sound s := by
  unfold display
  rw [h]
  rfl

theorem conversion_linear (pow : ℚ → ℚ → ℚ) (s : sailing_conversions_state_t)
    (froms tos : sailing_unit)
    (hf : (get_unit_list s.measurement_i)[s.from_i]? = some froms)
    (ht : (get_unit_list s.measurement_i)[s.to_i]? = some tos)
    (lf : ¬ (s.measurement_i = SPEED ∧ s.from_i = 3))
    (lt : ¬ (s.measurement_i = SPEED ∧ s.to_i = 3)) :
    conversion pow s =
      some ((s.selection_value : ℚ) * froms.conv_factor + 100 * froms.linear_factor,
            ((s.selection_value : ℚ) * froms.conv_factor + 100 * froms.linear_factor
              - 100 * tos.linear_factor) / tos.conv_factor) := by
  unfold conversion
  rw [hf, ht]
  simp only [if_neg lf, if_neg lt]
  push_cast
  rfl

theorem display_result_in_range (pow : ℚ → ℚ → ℚ) (sound : Bool)
    (s : sailing_conversions_state_t) (b c : ℚ)
    (hc : conversion pow s = some (b, c)) (h0 : 0 ≤ c) (h1 : c < 1000000) :
    ∃ l, display_result pow sound s = some l ∧
      l.bell = false ∧
      l.bottom = bottom_text.number (to_uint32 (c + 1 / 2))
        (if to_uint32 (c + 1 / 2) < 10 then 2 else if to_uint32 (c + 1 / 2) < 100 then 1 else 0) ∧
      l.sequence = (if sound then some buzzer_sequence.calc_success_seq else none) := by
  unfold display_result
  rw [hc]
  have hn : ¬ (c ≥ 1000000 ∨ c < 0) := by
    rintro (h | h)
    · exact absurd h1 (not_lt.mpr h)
    · exact absurd h0 (not_le.mpr h)
  simp only [if_neg hn]
  exact ⟨_, rfl, rfl, rfl, rfl⟩

theorem display_result_out_of_range (pow : ℚ → ℚ → ℚ) (sound : Bool)
    (s : sailing_conversions_state_t) (b c : ℚ)
    (hc : conversion pow s = some (b, c)) (h : c < 0 ∨ 1000000 ≤ c) :
    display_result pow sound s =
      some { top := "Res =", bottom := bottom_text.error, bell := true,
             sequence := if sound then some buzzer_sequence.calc_fail_seq else none } := by
  unfold display_result
  rw [hc]
  have hn : (c ≥ 1000000 ∨ c < 0) := by
    rcases h with h | h
    · exact Or.inr h
    · exact Or.inl h
  simp only [if_pos hn]


/-! ## The scenario Speed, 36 from unit 0 to unit 1 -/

/-- C4: Speed, unit 0 to unit 1, entered value 36: base 36, output 129.6, and
130 is shown. -/
theorem C4_speed_36_gives_130 (pow : ℚ → ℚ → ℚ) (sound : Bool) (subsec cursor : Nat)
    (held : Bool) :
    conversion pow ⟨sailing_result, SPEED, 0, 1, 36, cursor, held⟩ =
        some (36, 1296 / 10) ∧
      display pow sound ⟨sailing_result, SPEED, 0, 1, 36, cursor, held⟩ subsec =
        some { top := "Res =", bottom := bottom_text.number 130 0, bell := false,
               sequence := if sound then some buzzer_sequence.calc_success_seq else none } := by
  have hc : conversion pow ⟨sailing_result, SPEED, 0, 1, 36, cursor, held⟩ =
      some (36, 1296 / 10) := by
    rw [conversion_linear pow ⟨sailing_result, SPEED, 0, 1, 36, cursor, held⟩
      ⟨" n&/s", 1, 0⟩ ⟨"kn&/h", 1000 / 3600, 0⟩ rfl rfl (by simp) (by simp)]
    norm_num
  refine ⟨hc, ?_⟩
  have hr : to_uint32 ((1296 : ℚ) / 10 + 1 / 2) = 130 := by
    have h := to_uint32_of_lt ((1296 : ℚ) / 10 + 1 / 2) (by norm_num) (by norm_num)
    have hfl : ⌊(1296 : ℚ) / 10 + 1 / 2⌋ = 130 := by
      rw [Int.floor_eq_iff]; constructor <;> norm_num
    rw [hfl] at h
    exact_mod_cast h
  rw [display_result_page pow sound _ subsec rfl]
  unfold display_result
  rw [hc]
  have hn : ¬ ((1296 : ℚ) / 10 ≥ 1000000 ∨ (1296 : ℚ) / 10 < 0) := by norm_num
  simp only [if_neg hn, hr]
  rfl

/-! ## Round trip through a linear unit pair -/

theorem units_count_cases (m count : Nat)
    (hcount : sailing_units_count[m]? = some count) :
    (m = 0 ∧ count = 4) ∨ (m = 1 ∧ count = 2) := by
  match m, hcount with
  | 0, h => left; exact ⟨rfl, by simpa [sailing_units_count, SPEED_COUNT] using h.symm⟩
  | 1, h => right; exact ⟨rfl, by simpa [sailing_units_count, DISTANCE_COUNT] using h.symm⟩
  | n + 2, h => simp [sailing_units_count] at h

theorem linear_units_facts (m i j count : Nat)
    (hcount : sailing_units_count[m]? = some count) (hi : i < count) (hj : j < count)
    (li : ¬ (m = SPEED ∧ i = 3)) (lj : ¬ (m = SPEED ∧ j = 3)) :
    ∃ froms tos, (get_unit_list m)[i]? = some froms ∧ (get_unit_list m)[j]? = some tos ∧
      froms.linear_factor = 0 ∧ tos.linear_factor = 0 ∧
      0 < froms.conv_factor ∧ 0 < tos.conv_factor ∧
      tos.conv_factor ≤ 18 / 5 * froms.conv_factor ∧
      froms.conv_factor ≤ 18 / 5 * tos.conv_factor ∧
      (¬ (m = SPEED ∧ i = 1 ∧ j = 0) → tos.conv_factor ≤ 2 * froms.conv_factor) := by
  rcases units_count_cases m count hcount with ⟨rfl, rfl⟩ | ⟨rfl, rfl⟩
  · have hi3 : i ≠ 3 := fun h => li ⟨rfl, h⟩
    have hj3 : j ≠ 3 := fun h => lj ⟨rfl, h⟩
    have hi' : i < 3 := by omega
    have hj' : j < 3 := by omega
    interval_cases i <;> interval_cases j <;>
      refine ⟨_, _, rfl, rfl, rfl, rfl, ?_⟩ <;>
      norm_num [SPEED, get_unit_list, speeds, distances]
  · interval_cases i <;> interval_cases j <;>
      refine ⟨_, _, rfl, rfl, rfl, rfl, ?_⟩ <;>
      norm_num [SPEED, get_unit_list, speeds, distances]

theorem to_uint32_round (c : ℚ) (h0 : 0 ≤ c) (h1 : c < 1000000) :
    ((to_uint32 (c + 1 / 2) : Nat) : ℚ) ≤ c + 1 / 2 ∧
      c + 1 / 2 < ((to_uint32 (c + 1 / 2) : Nat) : ℚ) + 1 := by
  have h := to_uint32_of_lt (c + 1 / 2) (by linarith) (by linarith)
  have hq : ((to_uint32 (c + 1 / 2) : Nat) : ℚ) = ((⌊c + 1 / 2⌋ : Int) : ℚ) := by
    rw [← h]; norm_cast
  rw [hq]
  exact ⟨Int.floor_le _, Int.lt_floor_add_one _⟩

theorem to_uint32_eq (x : ℚ) (n : Nat) (h1 : (n : ℚ) ≤ x) (h2 : x < (n : ℚ) + 1)
    (h3 : n < 4294967296) : to_uint32 x = n := by
  unfold to_uint32
  have hfl : ⌊x⌋ = (n : Int) := by
    rw [Int.floor_eq_iff]
    exact ⟨by exact_mod_cast h1, by exact_mod_cast h2⟩
  rw [hfl]
  simp only [Int.toNat_ofNat]
  exact Nat.mod_eq_of_lt h3

/-- The number shown for a linear in-range pair whose table entries are known, when
the output is in range. -/
theorem display_linear_shown (pow : ℚ → ℚ → ℚ) (sound : Bool)
    (s : sailing_conversions_state_t) (subsec : Nat) (froms tos : sailing_unit)
    (hpg : s.pg = sailing_result)
    (hf : (get_unit_list s.measurement_i)[s.from_i]? = some froms)
    (ht : (get_unit_list s.measurement_i)[s.to_i]? = some tos)
    (lf : ¬ (s.measurement_i = SPEED ∧ s.from_i = 3))
    (lt : ¬ (s.measurement_i = SPEED ∧ s.to_i = 3))
    (h0 : 0 ≤ ((s.selection_value : ℚ) * froms.conv_factor + 100 * froms.linear_factor
                - 100 * tos.linear_factor) / tos.conv_factor)
    (h1 : ((s.selection_value : ℚ) * froms.conv_factor + 100 * froms.linear_factor
                - 100 * tos.linear_factor) / tos.conv_factor < 1000000) :
    ∃ l, display pow sound s subsec = some l ∧
      shown_number l = some (to_uint32
        (((s.selection_value : ℚ) * froms.conv_factor + 100 * froms.linear_factor
                - 100 * tos.linear_factor) / tos.conv_factor + 1 / 2)) := by
  have hc := conversion_linear pow s froms tos hf ht lf lt
  obtain ⟨l, hl, _, hbot, _⟩ := display_result_in_range pow sound s _ _ hc h0 h1
  refine ⟨l, ?_, ?_⟩
  · rw [display_result_page pow sound s subsec hpg, hl]
  · unfold shown_number
    rw [hbot]

/-- Arithmetic core of the round trip: converting with ratio `fi / fj`, rounding,
converting back with ratio `fj / fi` and rounding again moves the value by less
than `fj / (2 * fi) + 1 / 2` upwards and at most that much downwards. -/
theorem round_trip_core (fi fj t v r r2 : ℚ) (hfi : 0 < fi) (hfj : 0 < fj)
    (ht : fj ≤ t * fi)
    (hr1 : r ≤ v * fi / fj + 1 / 2) (hr2 : v * fi / fj + 1 / 2 < r + 1)
    (hs1 : r2 ≤ r * fj / fi + 1 / 2) (hs2 : r * fj / fi + 1 / 2 < r2 + 1) :
    r2 ≤ v + t / 2 + 1 / 2 ∧ v < r2 + t / 2 + 1 / 2 := by
  have e1 : v * fi / fj * fj = v * fi := by field_simp
  have e2 : r * fj / fi * fi = r * fj := by field_simp
  have a1 : r * fj ≤ v * fi + fj / 2 := by
    have := mul_le_mul_of_nonneg_right hr1 hfj.le
    rw [add_mul, e1] at this
    linarith
  have a2 : v * fi - fj / 2 < r * fj := by
    have := mul_lt_mul_of_pos_right hr2 hfj
    rw [add_mul, e1] at this
    linarith
  have b1 : r * fj / fi ≤ v + t / 2 := by
    rw [div_le_iff₀ hfi]
    nlinarith
  have b2 : v - t / 2 < r * fj / fi := by
    rw [lt_div_iff₀ hfi]
    nlinarith
  constructor <;> linarith

/-- C1 (as amended): for in-range linear source and target units and an entered
value in 0..9999, both conversions of the round trip show a number, and the value
that comes back is within 2 of the entered value; it is within 1 of it for every
pair other than Speed, unit 1 to unit 0. -/
theorem C1_round_trip_within_two (pow : ℚ → ℚ → ℚ) (sound : Bool)
    (s : sailing_conversions_state_t) (subsec count : Nat)
    (hpg : s.pg = sailing_result)
    (hcount : sailing_units_count[s.measurement_i]? = some count)
    (hi : s.from_i < count) (hj : s.to_i < count)
    (li : ¬ (s.measurement_i = SPEED ∧ s.from_i = 3))
    (lj : ¬ (s.measurement_i = SPEED ∧ s.to_i = 3))
    (hv : s.selection_value ≤ 9999) :
    ∃ l r l2 r2,
      display pow sound s subsec = some l ∧ shown_number l = some r ∧
      display pow sound
        { s with from_i := s.to_i, to_i := s.from_i, selection_value := r } subsec = some l2 ∧
      shown_number l2 = some r2 ∧
      (r2 ≤ s.selection_value + 2 ∧ s.selection_value ≤ r2 + 2) ∧
      (¬ (s.measurement_i = SPEED ∧ s.from_i = 1 ∧ s.to_i = 0) →
        r2 ≤ s.selection_value + 1 ∧ s.selection_value ≤ r2 + 1) := by
  obtain ⟨froms, tos, hf, ht, of0, ot0, hfi, hfj, hle, hle2, hstrict⟩ :=
    linear_units_facts s.measurement_i s.from_i s.to_i count hcount hi hj li lj
  have hvq : (s.selection_value : ℚ) ≤ 9999 := by exact_mod_cast hv
  have hv0 : (0 : ℚ) ≤ (s.selection_value : ℚ) := Nat.cast_nonneg _
  -- forward conversion
  have hc0 : 0 ≤ (s.selection_value : ℚ) * froms.conv_factor / tos.conv_factor :=
    div_nonneg (mul_nonneg hv0 hfi.le) hfj.le
  have hc1 : (s.selection_value : ℚ) * froms.conv_factor / tos.conv_factor < 1000000 := by
    rw [div_lt_iff₀ hfj]
    nlinarith
  have hform : ((s.selection_value : ℚ) * froms.conv_factor + 100 * froms.linear_factor
      - 100 * tos.linear_factor) / tos.conv_factor
      = (s.selection_value : ℚ) * froms.conv_factor / tos.conv_factor := by
    rw [of0, ot0]; simp
  obtain ⟨l, hl, hshown⟩ := display_linear_shown pow sound s subsec froms tos hpg hf ht li lj
    (by rw [hform]; exact hc0) (by rw [hform]; exact hc1)
  rw [hform] at hshown
  obtain ⟨hr1, hr2⟩ := to_uint32_round _ hc0 hc1
  generalize to_uint32 ((s.selection_value : ℚ) * froms.conv_factor / tos.conv_factor + 1 / 2)
    = r at hshown hr1 hr2
  -- the rounded result is small
  have hrq : (r : ℚ) ≤ 36000 := by
    have : (s.selection_value : ℚ) * froms.conv_factor / tos.conv_factor ≤ 35997 := by
      rw [div_le_iff₀ hfj]
      nlinarith
    linarith
  have hr0 : (0 : ℚ) ≤ (r : ℚ) := Nat.cast_nonneg _
  -- backward conversion
  have hd0 : 0 ≤ (r : ℚ) * tos.conv_factor / froms.conv_factor :=
    div_nonneg (mul_nonneg hr0 hfj.le) hfi.le
  have hd1 : (r : ℚ) * tos.conv_factor / froms.conv_factor < 1000000 := by
    rw [div_lt_iff₀ hfi]
    nlinarith
  have hform2 : ((r : ℚ) * tos.conv_factor + 100 * tos.linear_factor
      - 100 * froms.linear_factor) / froms.conv_factor
      = (r : ℚ) * tos.conv_factor / froms.conv_factor := by
    rw [of0, ot0]; simp
  have lj2 : ¬ (s.measurement_i = SPEED ∧ s.to_i = 3) := lj
  obtain ⟨l2, hl2, hshown2⟩ := display_linear_shown pow sound
    { s with from_i := s.to_i, to_i := s.from_i, selection_value := r } subsec tos froms
    hpg ht hf lj li (by rw [hform2]; exact hd0) (by rw [hform2]; exact hd1)
  simp only at hshown2
  rw [hform2] at hshown2
  obtain ⟨hs1, hs2⟩ := to_uint32_round _ hd0 hd1
  generalize to_uint32 ((r : ℚ) * tos.conv_factor / froms.conv_factor + 1 / 2)
    = r2 at hshown2 hs1 hs2
  refine ⟨l, r, l2, r2, hl, hshown, hl2, hshown2, ?_, ?_⟩
  · obtain ⟨u1, u2⟩ := round_trip_core froms.conv_factor tos.conv_factor (18 / 5)
      s.selection_value r r2 hfi hfj hle hr1 hr2 hs1 hs2
    have w1 : (r2 : ℚ) < ((s.selection_value + 3 : Nat) : ℚ) := by push_cast; linarith
    have w2 : (s.selection_value : ℚ) < ((r2 + 3 : Nat) : ℚ) := by push_cast; linarith
    have w1' : r2 < s.selection_value + 3 := by exact_mod_cast w1
    have w2' : s.selection_value < r2 + 3 := by exact_mod_cast w2
    omega
  · intro hne
    obtain ⟨u1, u2⟩ := round_trip_core froms.conv_factor tos.conv_factor 2
      s.selection_value r r2 hfi hfj (hstrict hne) hr1 hr2 hs1 hs2
    have w1 : (r2 : ℚ) < ((s.selection_value + 2 : Nat) : ℚ) := by push_cast; linarith
    have w2 : (s.selection_value : ℚ) < ((r2 + 2 : Nat) : ℚ) := by push_cast; linarith
    have w1' : r2 < s.selection_value + 2 := by exact_mod_cast w1
    have w2' : s.selection_value < r2 + 2 := by exact_mod_cast w2
    omega

/-- Witness for C1 (as amended): Speed, unit 1 to unit 0, entered value 2. -/
theorem C1_round_trip_within_two_witness :
    ∃ l r l2 r2,
      display (fun _ _ => 0) false ⟨4, 0, 1, 0, 2, 0, false⟩ 0 = some l ∧
      shown_number l = some r ∧
      display (fun _ _ => 0) false ⟨4, 0, 0, 1, r, 0, false⟩ 0 = some l2 ∧
      shown_number l2 = some r2 ∧
      (r2 ≤ 2 + 2 ∧ 2 ≤ r2 + 2) ∧
      (¬ ((0 : Nat) = SPEED ∧ (1 : Nat) = 1 ∧ (0 : Nat) = 0) → r2 ≤ 2 + 1 ∧ 2 ≤ r2 + 1) :=
  C1_round_trip_within_two (fun _ _ => 0) false ⟨4, 0, 1, 0, 2, 0, false⟩ 0 4 rfl rfl
    (by decide) (by decide) (by decide) (by decide) (by decide)

/-- C1 (as stated) fails: in Speed, converting 2 from unit 1 to unit 0 shows 1, and
converting 1 back from unit 0 to unit 1 shows 4, which is not within 1 of 2. -/
theorem C1_round_trip_counterexample :
    (∀ (pow : ℚ → ℚ → ℚ) (sound : Bool) (subsec : Nat),
      (display pow sound ⟨sailing_result, SPEED, 1, 0, 2, 0, false⟩ subsec).bind shown_number
        = some 1) ∧
    (∀ (pow : ℚ → ℚ → ℚ) (sound : Bool) (subsec : Nat),
      (display pow sound ⟨sailing_result, SPEED, 0, 1, 1, 0, false⟩ subsec).bind shown_number
        = some 4) ∧
    ¬ ((4 : Nat) ≤ 2 + 1 ∧ 2 ≤ 4 + 1) := by
  refine ⟨?_, ?_, by decide⟩
  · intro pow sound subsec
    obtain ⟨l, hl, hs⟩ := display_linear_shown pow sound
      ⟨sailing_result, SPEED, 1, 0, 2, 0, false⟩ subsec
      ⟨"kn&/h", 1000 / 3600, 0⟩ ⟨" n&/s", 1, 0⟩ rfl rfl rfl (by decide) (by decide)
      (by norm_num) (by norm_num)
    rw [hl, Option.some_bind, hs]
    congr 1
    apply to_uint32_eq <;> norm_num
  · intro pow sound subsec
    obtain ⟨l, hl, hs⟩ := display_linear_shown pow sound
      ⟨sailing_result, SPEED, 0, 1, 1, 0, false⟩ subsec
      ⟨" n&/s", 1, 0⟩ ⟨"kn&/h", 1000 / 3600, 0⟩ rfl rfl rfl (by decide) (by decide)
      (by norm_num) (by norm_num)
    rw [hl, Option.some_bind, hs]
    congr 1
    apply to_uint32_eq <;> norm_num

/-! ## The wind-force scenario -/

theorem rpow_ten_three_halves_bounds :
    (31622 / 1000 : ℝ) < (10 : ℝ) ^ ((3 : ℝ) / 2) ∧
      (10 : ℝ) ^ ((3 : ℝ) / 2) < (31623 / 1000 : ℝ) := by
  have hpos : (0 : ℝ) < (10 : ℝ) ^ ((3 : ℝ) / 2) := Real.rpow_pos_of_pos (by norm_num) _
  have hsq : ((10 : ℝ) ^ ((3 : ℝ) / 2)) ^ 2 = 1000 := by
    rw [← Real.rpow_natCast, ← Real.rpow_mul (by norm_num)]
    have h3 : (3 : ℝ) / 2 * ((2 : Nat) : ℝ) = ((3 : Nat) : ℝ) := by norm_num
    rw [h3, Real.rpow_natCast]
    norm_num
  constructor
  · by_contra h
    push_neg at h
    nlinarith
  · by_contra h
    push_neg at h
    nlinarith

theorem conversion_wind_force_10 (pow : ℚ → ℚ → ℚ) (cursor : Nat) (held : Bool) :
    conversion pow ⟨sailing_result, SPEED, 3, 0, 10, cursor, held⟩ =
      some (836 / 1000 * pow 10 (3 / 2) / 10, 836 / 1000 * pow 10 (3 / 2) / 10) := by
  unfold conversion
  have hf : (get_unit_list SPEED)[3]? = some (⟨" bft", 1, 0⟩ : sailing_unit) := rfl
  have ht : (get_unit_list SPEED)[0]? = some (⟨" n&/s", 1, 0⟩ : sailing_unit) := rfl
  simp only [hf, ht]
  norm_num [SPEED]

/-- C5: Speed, wind-force unit (index 3) to unit 0, entered value 10, with a `pow`
that is within 1/1000 of the real power at (10, 3/2): the base is
`0.836 * pow(10, 3/2) / 10`, which is within 1/10000 of `0.0836 * 10^(3/2)` and
within 1/1000 of 2.643; the output equals the base; and 3 is shown. -/
theorem C5_wind_force_10_gives_3 (pow : ℚ → ℚ → ℚ) (sound : Bool) (subsec cursor : Nat)
    (held : Bool)
    (hpow : |((pow 10 (3 / 2) : ℚ) : ℝ) - (10 : ℝ) ^ ((3 : ℝ) / 2)| ≤ 1 / 1000) :
    ∃ base : ℚ,
      conversion pow ⟨sailing_result, SPEED, 3, 0, 10, cursor, held⟩ = some (base, base) ∧
      base = 836 / 1000 * pow 10 (3 / 2) / 10 ∧
      |(base : ℝ) - 836 / 10000 * (10 : ℝ) ^ ((3 : ℝ) / 2)| ≤ 1 / 10000 ∧
      |base - 2643 / 1000| ≤ 1 / 1000 ∧
      display pow sound ⟨sailing_result, SPEED, 3, 0, 10, cursor, held⟩ subsec =
        some { top := "Res =", bottom := bottom_text.number 3 2, bell := false,
               sequence := if sound then some buzzer_sequence.calc_success_seq else none } := by
  have hc := conversion_wind_force_10 pow cursor held
  obtain ⟨hb1, hb2⟩ := rpow_ten_three_halves_bounds
  obtain ⟨hp1, hp2⟩ := abs_le.mp hpow
  generalize pow 10 (3 / 2) = p at hc hp1 hp2
  have hpl : ((31621 / 1000 : ℚ) : ℝ) < (p : ℝ) := by push_cast; linarith
  have hpu : (p : ℝ) < ((31624 / 1000 : ℚ) : ℝ) := by push_cast; linarith
  have hpl' : (31621 / 1000 : ℚ) < p := by exact_mod_cast hpl
  have hpu' : p < (31624 / 1000 : ℚ) := by exact_mod_cast hpu
  refine ⟨836 / 1000 * p / 10, hc, rfl, ?_, ?_, ?_⟩
  · rw [abs_le]
    push_cast
    constructor <;> linarith
  · rw [abs_le]
    constructor <;> linarith
  · have hr : to_uint32 (836 / 1000 * p / 10 + 1 / 2) = 3 := by
      apply to_uint32_eq
      · push_cast; linarith
      · push_cast; linarith
      · norm_num
    rw [display_result_page pow sound _ subsec rfl]
    unfold display_result
    rw [hc]
    have hn : ¬ ((836 : ℚ) / 1000 * p / 10 ≥ 1000000 ∨ (836 : ℚ) / 1000 * p / 10 < 0) := by
      rintro (h | h) <;> linarith
    simp only [if_neg hn, hr]
    rfl

/-- Witness for C5: a `pow` whose value at (10, 3/2) is 31.6227766. -/
theorem C5_wind_force_10_gives_3_witness :
    ∃ base : ℚ,
      conversion (fun _ _ => 316227766 / 10000000) ⟨sailing_result, SPEED, 3, 0, 10, 1, false⟩
        = some (base, base) ∧
      base = 836 / 1000 * (316227766 / 10000000) / 10 ∧
      |(base : ℝ) - 836 / 10000 * (10 : ℝ) ^ ((3 : ℝ) / 2)| ≤ 1 / 10000 ∧
      |base - 2643 / 1000| ≤ 1 / 1000 ∧
      display (fun _ _ => 316227766 / 10000000) true
          ⟨sailing_result, SPEED, 3, 0, 10, 1, false⟩ 0 =
        some { top := "Res =", bottom := bottom_text.number 3 2, bell := false,
               sequence := some buzzer_sequence.calc_success_seq } :=
  C5_wind_force_10_gives_3 (fun _ _ => 316227766 / 10000000) true 0 1 false (by
    obtain ⟨hb1, hb2⟩ := rpow_ten_three_halves_bounds
    rw [abs_le]
    push_cast
    constructor <;> linarith)

/-! ## Digit editor -/

theorem pow_10_digit_exponent (k : Nat) (hk : k ≤ 3) :
    pow_10 (digit_exponent k) = 10 ^ (3 - k) := by
  interval_cases k <;> rfl

/-- On a four-digit value with the cursor in 0..3 no `uint32_t` operation of
`increment_input` wraps and the divisor is not zero. -/
theorem increment_input_value (s : sailing_conversions_state_t)
    (hv : s.selection_value ≤ 9999) (hk : s.selection_index ≤ 3) :
    increment_input s =
      some { s with
             selection_value :=
               if s.selection_value / 10 ^ (3 - s.selection_index) % 10 = 9 then
                 s.selection_value - 9 * 10 ^ (3 - s.selection_index)
               else s.selection_value + 10 ^ (3 - s.selection_index) } := by
  obtain ⟨pg, m, f, t, v, k, held⟩ := s
  simp only at hv hk
  unfold increment_input
  simp only [pow_10_digit_exponent k hk]
  interval_cases k <;> norm_num <;> split_ifs <;> simp <;> omega

theorem increment_input_times_value (s : sailing_conversions_state_t)
    (hv : s.selection_value ≤ 9999) (hk : s.selection_index ≤ 3) (n : Nat) :
    increment_input_times n s =
      some { s with
             selection_value :=
               s.selection_value
                 - (s.selection_value / 10 ^ (3 - s.selection_index) % 10)
                     * 10 ^ (3 - s.selection_index)
                 + ((s.selection_value / 10 ^ (3 - s.selection_index) % 10 + n) % 10)
                     * 10 ^ (3 - s.selection_index) } := by
  induction n with
  | zero =>
    obtain ⟨pg, m, f, t, v, k, held⟩ := s
    simp only at hv hk
    simp only [increment_input_times, Option.some.injEq,
      sailing_conversions_state_t.mk.injEq, true_and, and_true]
    interval_cases k <;> norm_num <;> omega
  | succ n ih =>
    obtain ⟨pg, m, f, t, v, k, held⟩ := s
    simp only at hv hk ih
    simp only [increment_input_times, ih, Option.some_bind]
    rw [increment_input_value _ (by
      simp only
      interval_cases k <;> norm_num <;> omega) hk]
    simp only [Option.some.injEq, sailing_conversions_state_t.mk.injEq, true_and, and_true]
    interval_cases k <;> norm_num <;> split_ifs <;> omega

/-- C6: for an entered value in 0..9999 and a cursor in 0..3, ten applications of
`increment_input` at that cursor all succeed and give back exactly the starting
state. -/
theorem C6_increment_ten_times_identity (s : sailing_conversions_state_t)
    (hv : s.selection_value ≤ 9999) (hk : s.selection_index ≤ 3) :
    increment_input_times 10 s = some s := by
  rw [increment_input_times_value s hv hk 10]
  obtain ⟨pg, m, f, t, v, k, held⟩ := s
  simp only at hv hk
  simp only [Option.some.injEq, sailing_conversions_state_t.mk.injEq, true_and, and_true]
  interval_cases k <;> norm_num <;> omega

/-- Witness for C6: the value 1939 with the cursor on the hundreds digit. -/
theorem C6_increment_ten_times_identity_witness :
    increment_input_times 10 ⟨3, 0, 0, 1, 1939, 1, false⟩ = some ⟨3, 0, 0, 1, 1939, 1, false⟩ :=
  C6_increment_ten_times_identity ⟨3, 0, 0, 1, 1939, 1, false⟩ (by decide) (by decide)

/-- C7: for an entered value in 0..9999 and a cursor `k` in 0..3, `increment_input`
succeeds, changes only the entered value, keeps it in 0..9999, turns the decimal
digit `d` at the cursor into `(d + 1) % 10` and leaves the other three decimal
digits as they were. -/
theorem C7_increment_is_digit_local (s : sailing_conversions_state_t)
    (hv : s.selection_value ≤ 9999) (hk : s.selection_index ≤ 3) :
    ∃ v, increment_input s = some { s with selection_value := v } ∧ v ≤ 9999 ∧
      ∀ j, j ≤ 3 →
        decimal_digit v j =
          if j = s.selection_index then (decimal_digit s.selection_value j + 1) % 10
          else decimal_digit s.selection_value j := by
  refine ⟨_, increment_input_value s hv hk, ?_, ?_⟩
  · obtain ⟨pg, m, f, t, v, k, held⟩ := s
    simp only at hv hk ⊢
    interval_cases k <;> norm_num <;> split_ifs <;> omega
  · intro j hj
    obtain ⟨pg, m, f, t, v, k, held⟩ := s
    simp only at hv hk ⊢
    unfold decimal_digit DISPLAY_DIGITS
    interval_cases k <;> interval_cases j <;> norm_num <;> split_ifs <;> omega

/-- Witness for C7: the value 1939 with the cursor on the hundreds digit. -/
theorem C7_increment_is_digit_local_witness :
    ∃ v, increment_input ⟨3, 0, 0, 1, 1939, 1, false⟩ = some ⟨3, 0, 0, 1, v, 1, false⟩ ∧
      v ≤ 9999 ∧
      ∀ j, j ≤ 3 →
        decimal_digit v j =
          if j = 1 then (decimal_digit 1939 j + 1) % 10 else decimal_digit 1939 j :=
  C7_increment_is_digit_local ⟨3, 0, 0, 1, 1939, 1, false⟩ (by decide) (by decide)

/-! ## Invariant of the event loop -/

theorem inv_reset (s : sailing_conversions_state_t) : Inv (reset_state s) := by
  constructor <;> simp [reset_state, sailing_measurement]

theorem inv_increment_input (s : sailing_conversions_state_t) (h : Inv s)
    (hpg : s.pg = 3) :
    ∃ v, increment_input s = some { s with selection_value := v } ∧
      Inv { s with selection_value := v } ∧
      Inv { s with selection_value := v, alarm_held := false } := by
  obtain ⟨h1, h2, h3, h4, h5, h6, h7, h8, h9, h10, h11, h12⟩ := h
  refine ⟨_, increment_input_value s h9 h10, ?_, ?_⟩ <;>
  · obtain ⟨pg, m, f, t, v, k, held⟩ := s
    simp only at *
    subst hpg
    constructor <;> simp only <;> try omega
    all_goals first
      | (interval_cases k <;> norm_num <;> split_ifs <;> omega)
      | (intro hm hf
         have := h11 hm hf
         have hk : k = 0 ∨ k = 1 := by omega
         rcases hk with rfl | rfl <;> norm_num <;> split_ifs <;> omega)

theorem inv_alarm_button_up (s : sailing_conversions_state_t) (h : Inv s) :
    ∃ t, alarm_button_up s = some t ∧ Inv t := by
  by_cases hpg : s.pg = 3
  · obtain ⟨v, hv, _, hinv⟩ := inv_increment_input s h hpg
    refine ⟨_, ?_, hinv⟩
    obtain ⟨pg, m, f, t, v, k, held⟩ := s
    simp only at hpg
    subst hpg
    simp only [alarm_button_up, hv, Option.map_some']
  · obtain ⟨h1, h2, h3, h4, h5, h6, h7, h8, h9, h10, h11, h12⟩ := h
    obtain ⟨pg, m, f, t, v, k, held⟩ := s
    simp only at *
    have hm : m = 0 ∨ m = 1 := by omega
    have hp : pg = 0 ∨ pg = 1 ∨ pg = 2 ∨ pg = 4 := by omega
    rcases hm with rfl | rfl <;> rcases hp with rfl | rfl | rfl | rfl <;>
      simp [alarm_button_up, increment_wrapping, MEASURES_COUNT, sailing_units_count,
        SPEED_COUNT, DISTANCE_COUNT] <;>
      (try split_ifs) <;>
      (try refine ⟨_, rfl, ?_⟩) <;>
      (constructor <;> (try simp only) <;> first | omega | simp)

theorem inv_light_button_up (s : sailing_conversions_state_t) (h : Inv s) :
    ∃ t, light_button_up s = some t ∧ Inv t := by
  obtain ⟨h1, h2, h3, h4, h5, h6, h7, h8, h9, h10, h11, h12⟩ := h
  obtain ⟨pg, m, f, t, v, k, held⟩ := s
  simp only at *
  have hm : m = 0 ∨ m = 1 := by omega
  have hp : pg = 0 ∨ pg = 1 ∨ pg = 2 ∨ pg = 3 ∨ pg = 4 := by omega
  rcases hm with rfl | rfl <;> rcases hp with rfl | rfl | rfl | rfl | rfl <;>
    simp [light_button_up, increment_wrapping, sailing_units_count, reset_state,
      SPEED_COUNT, DISTANCE_COUNT, SPEED, DISPLAY_DIGITS, SCREEN_NUM, sailing_input,
      sailing_from, sailing_measurement] <;>
    (try split_ifs) <;>
    (try refine ⟨_, rfl, ?_⟩) <;>
    (constructor <;> (try simp only) <;> first | omega | simp)

theorem inv_light_long_press (s : sailing_conversions_state_t) (h : Inv s) :
    Inv (light_long_press s) := by
  obtain ⟨h1, h2, h3, h4, h5, h6, h7, h8, h9, h10, h11, h12⟩ := h
  obtain ⟨pg, m, f, t, v, k, held⟩ := s
  simp only at *
  have hp : pg = 0 ∨ pg = 1 ∨ pg = 2 ∨ pg = 3 ∨ pg = 4 := by omega
  rcases hp with rfl | rfl | rfl | rfl | rfl <;>
    simp [light_long_press, sailing_measurement] <;>
    (constructor <;> (try simp only) <;> first | omega | (simp at *; done) | simp_all)

theorem inv_loop (e : movement_event_t) (s : sailing_conversions_state_t) (h : Inv s) :
    ∃ t, sailing_conversions_face_loop e s = some t ∧ Inv t := by
  obtain ⟨ty, subsec⟩ := e
  cases ty
  case EVENT_ACTIVATE => exact ⟨s, rfl, h⟩
  case EVENT_TICK =>
    unfold sailing_conversions_face_loop
    simp only
    by_cases hpg : s.pg = sailing_input
    · rw [if_pos hpg]
      by_cases hh : s.alarm_held = true ∧ subsec % 2 ≠ 0
      · rw [if_pos hh]
        obtain ⟨v, hv, hinv, _⟩ := inv_increment_input s h hpg
        exact ⟨_, hv, hinv⟩
      · rw [if_neg hh]
        exact ⟨s, rfl, h⟩
    · rw [if_neg hpg]
      exact ⟨s, rfl, h⟩
  case EVENT_ALARM_BUTTON_UP => exact inv_alarm_button_up s h
  case EVENT_LIGHT_BUTTON_DOWN => exact ⟨s, rfl, h⟩
  case EVENT_LIGHT_BUTTON_UP => exact inv_light_button_up s h
  case EVENT_LIGHT_LONG_PRESS => exact ⟨_, rfl, inv_light_long_press s h⟩
  case EVENT_ALARM_LONG_PRESS =>
    unfold sailing_conversions_face_loop
    simp only
    by_cases hpg : s.pg = sailing_input
    · rw [if_pos hpg]
      refine ⟨_, rfl, ?_⟩
      obtain ⟨h1, h2, h3, h4, h5, h6, h7, h8, h9, h10, h11, h12⟩ := h
      constructor <;> first | assumption | (intro _; exact hpg)
    · rw [if_neg hpg]
      exact ⟨s, rfl, h⟩
  case EVENT_ALARM_LONG_UP =>
    refine ⟨_, rfl, ?_⟩
    obtain ⟨h1, h2, h3, h4, h5, h6, h7, h8, h9, h10, h11, h12⟩ := h
    constructor <;> first | assumption | simp
  case EVENT_TIMEOUT => exact ⟨s, rfl, h⟩
  case EVENT_OTHER => exact ⟨s, rfl, h⟩

theorem inv_of_reachable (s : sailing_conversions_state_t) (h : Reachable s) : Inv s := by
  induction h with
  | reset s0 => exact inv_reset s0
  | step e _ hstep ih =>
    obtain ⟨t2, ht2, hinv⟩ := inv_loop e _ ih
    rw [hstep] at ht2
    cases ht2
    exact hinv

theorem reachable_run (es : List movement_event_t) (s t : sailing_conversions_state_t)
    (hs : Reachable s) (h : run es s = some t) : Reachable t := by
  induction es generalizing s with
  | nil =>
    simp only [run, Option.some.injEq] at h
    exact h ▸ hs
  | cons e es ih =>
    simp only [run] at h
    cases hstep : sailing_conversions_face_loop e s with
    | none => rw [hstep] at h; simp at h
    | some u =>
      rw [hstep, Option.some_bind] at h
      exact ih u (Reachable.step e hs hstep) h

theorem lookups_of_inv (s : sailing_conversions_state_t) (h : Inv s) :
    ∃ count froms tos measurement_name,
      sailing_units_count[s.measurement_i]? = some count ∧
      s.from_i < count ∧ s.to_i < count ∧
      (get_unit_list s.measurement_i)[s.from_i]? = some froms ∧
      (get_unit_list s.measurement_i)[s.to_i]? = some tos ∧
      sailing_measures[s.measurement_i]? = some measurement_name := by
  obtain ⟨h1, h2, h3, h4, h5, h6, h7, h8, h9, h10, h11, h12⟩ := h
  obtain ⟨pg, m, f, t, v, k, held⟩ := s
  simp only at *
  have hm : m = 0 ∨ m = 1 := by omega
  rcases hm with rfl | rfl
  · obtain ⟨hf, ht⟩ := h3 rfl
    refine ⟨4, ?_⟩
    interval_cases f <;> interval_cases t <;> exact ⟨_, _, _, rfl, hf, ht, rfl, rfl, rfl⟩
  · obtain ⟨hf, ht⟩ := h4 rfl
    refine ⟨2, ?_⟩
    interval_cases f <;> interval_cases t <;> exact ⟨_, _, _, rfl, hf, ht, rfl, rfl, rfl⟩

theorem display_result_total (pow : ℚ → ℚ → ℚ) (sound : Bool)
    (s : sailing_conversions_state_t) (froms tos : sailing_unit)
    (hf : (get_unit_list s.measurement_i)[s.from_i]? = some froms)
    (ht : (get_unit_list s.measurement_i)[s.to_i]? = some tos) :
    ∃ l, display_result pow sound s = some l := by
  have hc : ∃ b c, conversion pow s = some (b, c) := by
    unfold conversion
    rw [hf, ht]
    exact ⟨_, _, rfl⟩
  obtain ⟨b, c, hc⟩ := hc
  by_cases h : c < 0 ∨ 1000000 ≤ c
  · exact ⟨_, display_result_out_of_range pow sound s b c hc h⟩
  · have h0 : 0 ≤ c := by
      by_contra hlt; exact h (Or.inl (not_le.mp hlt))
    have h1 : c < 1000000 := by
      by_contra hge; exact h (Or.inr (not_lt.mp hge))
    obtain ⟨l, hl, _⟩ := display_result_in_range pow sound s b c hc h0 h1
    exact ⟨l, hl⟩

theorem display_total (pow : ℚ → ℚ → ℚ) (sound : Bool) (s : sailing_conversions_state_t)
    (subsec : Nat) (h : Inv s) : ∃ l, display pow sound s subsec = some l := by
  obtain ⟨_, froms, tos, name, _, _, _, hf, ht, hn⟩ := lookups_of_inv s h
  have hp : s.pg = 0 ∨ s.pg = 1 ∨ s.pg = 2 ∨ s.pg = 3 ∨ s.pg = 4 := by
    have := h.pg_le
    omega
  unfold display
  rcases hp with hp | hp | hp | hp | hp <;> rw [hp] <;> simp only
  · rw [hn]; exact ⟨_, rfl⟩
  · rw [hf]; exact ⟨_, rfl⟩
  · rw [ht]; exact ⟨_, rfl⟩
  · exact ⟨_, rfl⟩
  · exact display_result_total pow sound s froms tos hf ht

/-! ## Claims on the reachable states -/

/-- C8: in every state reachable from the reset state, whenever the page is
ValueInput or Result the source unit index differs from the target unit index. -/
theorem C8_source_differs_from_target (s : sailing_conversions_state_t)
    (hr : Reachable s) (hp : s.pg = sailing_input ∨ s.pg = sailing_result) :
    s.from_i ≠ s.to_i := by
  have h := inv_of_reachable s hr
  apply h.distinct
  rcases hp with hp | hp <;> rw [hp] <;> decide

/-- Witness for C8: three presses of the light button lead from the reset state to
the ValueInput page with source 0 and target 1. -/
theorem C8_source_differs_from_target_witness :
    Reachable ⟨3, 0, 0, 1, 0, 0, false⟩ ∧
      (⟨3, 0, 0, 1, 0, 0, false⟩ : sailing_conversions_state_t).from_i ≠
        (⟨3, 0, 0, 1, 0, 0, false⟩ : sailing_conversions_state_t).to_i :=
  have hr : Reachable ⟨3, 0, 0, 1, 0, 0, false⟩ :=
    reachable_run
      [⟨EVENT_LIGHT_BUTTON_UP, 0⟩, ⟨EVENT_LIGHT_BUTTON_UP, 0⟩, ⟨EVENT_LIGHT_BUTTON_UP, 0⟩]
      _ _ (Reachable.reset ⟨0, 0, 0, 0, 0, 0, false⟩) rfl
  ⟨hr, C8_source_differs_from_target ⟨3, 0, 0, 1, 0, 0, false⟩ hr (Or.inl rfl)⟩

/-- C9: in every state reachable from the reset state the page is one of the five
ordinals 0..4, the category index is 0 or 1, the source and target unit indices are
smaller than the unit count of the current category (4 for Speed, 2 for
Distance), every unit-table read of `display` is in bounds, and neither `display`
nor the next call of the loop runs into undefined behaviour. -/
theorem C9_page_and_indices_in_range (s : sailing_conversions_state_t)
    (hr : Reachable s) :
    s.pg < SCREEN_NUM ∧
      (s.measurement_i = SPEED ∨ s.measurement_i = DISTANCE) ∧
      (s.measurement_i = SPEED → s.from_i < SPEED_COUNT ∧ s.to_i < SPEED_COUNT) ∧
      (s.measurement_i = DISTANCE → s.from_i < DISTANCE_COUNT ∧ s.to_i < DISTANCE_COUNT) ∧
      (∃ count froms tos measurement_name,
        sailing_units_count[s.measurement_i]? = some count ∧
        s.from_i < count ∧ s.to_i < count ∧
        (get_unit_list s.measurement_i)[s.from_i]? = some froms ∧
        (get_unit_list s.measurement_i)[s.to_i]? = some tos ∧
        sailing_measures[s.measurement_i]? = some measurement_name) ∧
      (∀ (pow : ℚ → ℚ → ℚ) (sound : Bool) (subsec : Nat),
        ∃ l, display pow sound s subsec = some l) ∧
      (∀ e : movement_event_t, ∃ t, sailing_conversions_face_loop e s = some t) := by
  have h := inv_of_reachable s hr
  refine ⟨?_, ?_, ?_, ?_, lookups_of_inv s h, ?_, ?_⟩
  · have := h.pg_le
    unfold SCREEN_NUM
    omega
  · have := h.measurement_lt
    unfold SPEED DISTANCE
    omega
  · exact h.speed_range
  · exact h.distance_range
  · intro pow sound subsec
    exact display_total pow sound s subsec h
  · intro e
    obtain ⟨t, ht, _⟩ := inv_loop e s h
    exact ⟨t, ht⟩

/-- Witness for C9: the state reached from the reset state by choosing Distance,
moving to the source page and cycling the source unit once. -/
theorem C9_page_and_indices_in_range_witness :
    Reachable ⟨1, 1, 1, 0, 0, 0, false⟩ ∧
      (1 : Nat) < SCREEN_NUM ∧ ((1 : Nat) = SPEED ∨ (1 : Nat) = DISTANCE) ∧
      ((1 : Nat) = DISTANCE → (1 : Nat) < DISTANCE_COUNT ∧ (0 : Nat) < DISTANCE_COUNT) :=
  have hr : Reachable ⟨1, 1, 1, 0, 0, 0, false⟩ :=
    reachable_run
      [⟨EVENT_ALARM_BUTTON_UP, 0⟩, ⟨EVENT_LIGHT_BUTTON_UP, 0⟩, ⟨EVENT_ALARM_BUTTON_UP, 0⟩]
      _ _ (Reachable.reset ⟨0, 0, 0, 0, 0, 0, false⟩) rfl
  have h := C9_page_and_indices_in_range ⟨1, 1, 1, 0, 0, 0, false⟩ hr
  ⟨hr, h.1, h.2.1, h.2.2.2.1⟩

/-- C10: in every state reachable from the reset state the entered value is in
0..9999 and the cursor index is in 0..3, and the cursor index is in 0..1 whenever
the category is Speed and the source unit is the wind-force unit (index 3). -/
theorem C10_value_and_cursor_in_range (s : sailing_conversions_state_t)
    (hr : Reachable s) :
    s.selection_value ≤ 9999 ∧ s.selection_index ≤ 3 ∧
      (s.measurement_i = SPEED ∧ s.from_i = 3 → s.selection_index ≤ 1) := by
  have h := inv_of_reachable s hr
  exact ⟨h.value_le, h.index_le, fun hw => (h.wind_force hw.1 hw.2).1⟩

/-- Witness for C10: Speed with the wind-force unit as source, on the ValueInput
page with the cursor on its second (and last) digit, after one digit increment
held for a tick. -/
theorem C10_value_and_cursor_in_range_witness :
    Reachable ⟨3, 0, 3, 0, 200, 1, true⟩ ∧
      (200 : Nat) ≤ 9999 ∧ (1 : Nat) ≤ 3 ∧ ((0 : Nat) = SPEED ∧ (3 : Nat) = 3 → (1 : Nat) ≤ 1) :=
  have hr : Reachable ⟨3, 0, 3, 0, 200, 1, true⟩ :=
    reachable_run
      [⟨EVENT_LIGHT_BUTTON_UP, 0⟩, ⟨EVENT_ALARM_BUTTON_UP, 0⟩, ⟨EVENT_ALARM_BUTTON_UP, 0⟩,
       ⟨EVENT_ALARM_BUTTON_UP, 0⟩, ⟨EVENT_LIGHT_BUTTON_UP, 0⟩, ⟨EVENT_LIGHT_BUTTON_UP, 0⟩,
       ⟨EVENT_LIGHT_BUTTON_UP, 0⟩, ⟨EVENT_ALARM_BUTTON_UP, 0⟩, ⟨EVENT_ALARM_LONG_PRESS, 0⟩,
       ⟨EVENT_TICK, 1⟩]
      _ _ (Reachable.reset ⟨0, 0, 0, 0, 0, 0, false⟩) rfl
  ⟨hr, C10_value_and_cursor_in_range ⟨3, 0, 3, 0, 200, 1, true⟩ hr⟩

/-! ## Claims on single events -/

/-- C11: on each of the pages SourceUnit, TargetUnit, ValueInput and Result the
light long-press moves the page to the previous ordinal and zeroes exactly the
fields owned by the page being left (source index on SourceUnit, target index on
TargetUnit, entered value and cursor on ValueInput, cursor only on Result); the
category index and every other selection field keep their values, and the hold
flag is cleared. -/
theorem C11_backward_zeroes_owned_fields (e : movement_event_t)
    (s : sailing_conversions_state_t)
    (he : e.event_type = EVENT_LIGHT_LONG_PRESS)
    (hp : s.pg ≠ sailing_measurement) (hp4 : s.pg < SCREEN_NUM) :
    sailing_conversions_face_loop e s =
      some { pg := s.pg - 1,
             measurement_i := s.measurement_i,
             from_i := if s.pg = sailing_from then 0 else s.from_i,
             to_i := if s.pg = sailing_to then 0 else s.to_i,
             selection_value := if s.pg = sailing_input then 0 else s.selection_value,
             selection_index :=
               if s.pg = sailing_input ∨ s.pg = sailing_result then 0
               else s.selection_index,
             alarm_held := false } := by
  obtain ⟨ty, subsec⟩ := e
  obtain ⟨pg, m, f, t, v, k, held⟩ := s
  simp only at he hp hp4
  subst he
  have hcases : pg = 1 ∨ pg = 2 ∨ pg = 3 ∨ pg = 4 := by
    unfold sailing_measurement at hp
    unfold SCREEN_NUM at hp4
    omega
  rcases hcases with rfl | rfl | rfl | rfl <;> rfl

/-- Witness for C11: leaving ValueInput with value 1939 and cursor 2. -/
theorem C11_backward_zeroes_owned_fields_witness :
    sailing_conversions_face_loop ⟨EVENT_LIGHT_LONG_PRESS, 0⟩ ⟨3, 0, 2, 1, 1939, 2, true⟩ =
      some ⟨2, 0, 2, 1, 0, 0, false⟩ :=
  C11_backward_zeroes_owned_fields ⟨EVENT_LIGHT_LONG_PRESS, 0⟩ ⟨3, 0, 2, 1, 1939, 2, true⟩
    rfl (by decide) (by decide)

/-- C12: on the CategorySelect page the light long-press leaves the whole state
unchanged. -/
theorem C12_backward_disabled_on_category_select (e : movement_event_t)
    (s : sailing_conversions_state_t)
    (he : e.event_type = EVENT_LIGHT_LONG_PRESS) (hp : s.pg = sailing_measurement) :
    sailing_conversions_face_loop e s = some s := by
  obtain ⟨ty, subsec⟩ := e
  simp only at he
  subst he
  simp only [sailing_conversions_face_loop, light_long_press, hp, ne_eq, not_true_eq_false,
    if_false]

/-- Witness for C12: a state on CategorySelect with Distance chosen. -/
theorem C12_backward_disabled_on_category_select_witness :
    sailing_conversions_face_loop ⟨EVENT_LIGHT_LONG_PRESS, 3⟩ ⟨0, 1, 0, 0, 0, 0, false⟩ =
      some ⟨0, 1, 0, 0, 0, 0, false⟩ :=
  C12_backward_disabled_on_category_select ⟨EVENT_LIGHT_LONG_PRESS, 3⟩
    ⟨0, 1, 0, 0, 0, 0, false⟩ rfl rfl

/-- C13: on the Result page the light button up gives exactly the state that
`reset_state` (called on activation) gives: page CategorySelect, category 0,
source 0, target 0, entered value 0, cursor 0, hold flag false. -/
theorem C13_forward_from_result_resets (e : movement_event_t)
    (s : sailing_conversions_state_t)
    (he : e.event_type = EVENT_LIGHT_BUTTON_UP) (hp : s.pg = sailing_result) :
    sailing_conversions_face_loop e s = some (reset_state s) ∧
      reset_state s = ⟨sailing_measurement, 0, 0, 0, 0, 0, false⟩ := by
  obtain ⟨ty, subsec⟩ := e
  obtain ⟨pg, m, f, t, v, k, held⟩ := s
  simp only at he hp
  subst he hp
  exact ⟨rfl, rfl⟩

/-- Witness for C13: a Result page after converting 1939 from unit 2 to unit 1. -/
theorem C13_forward_from_result_resets_witness :
    sailing_conversions_face_loop ⟨EVENT_LIGHT_BUTTON_UP, 0⟩ ⟨4, 0, 2, 1, 1939, 3, false⟩ =
        some (reset_state ⟨4, 0, 2, 1, 1939, 3, false⟩) ∧
      reset_state ⟨4, 0, 2, 1, 1939, 3, false⟩ = ⟨sailing_measurement, 0, 0, 0, 0, 0, false⟩ :=
  C13_forward_from_result_resets ⟨EVENT_LIGHT_BUTTON_UP, 0⟩ ⟨4, 0, 2, 1, 1939, 3, false⟩
    rfl rfl

/-- C14: on the ValueInput page, with the last cursor position being 3, or 1 when
the category is Speed and the source is the wind-force unit: at the last position
the light button up sets the page to Result and leaves cursor and entered value as
they are; before the last position it moves the cursor right by one and stays on
ValueInput. In both cases the hold flag is cleared and nothing else changes. -/
theorem C14_advance_cursor_or_result (e : movement_event_t)
    (s : sailing_conversions_state_t)
    (he : e.event_type = EVENT_LIGHT_BUTTON_UP) (hp : s.pg = sailing_input) :
    (s.selection_index = (if s.measurement_i = SPEED ∧ s.from_i = 3 then 1 else 3) →
      sailing_conversions_face_loop e s =
        some { s with pg := sailing_result, alarm_held := false }) ∧
    (s.selection_index < (if s.measurement_i = SPEED ∧ s.from_i = 3 then 1 else 3) →
      sailing_conversions_face_loop e s =
        some { s with selection_index := s.selection_index + 1, alarm_held := false }) := by
  obtain ⟨ty, subsec⟩ := e
  obtain ⟨pg, m, f, t, v, k, held⟩ := s
  simp only at he hp
  subst he hp
  simp only [sailing_conversions_face_loop, light_button_up, sailing_input, if_true,
    DISPLAY_DIGITS, sailing_result]
  by_cases hw : m = SPEED ∧ f = 3
  · simp only [if_pos hw]
    constructor
    · intro hk
      have hlt : ¬ ((k : Int) < ((4 : Nat) : Int) - 1 - 2 * 1) := by
        push_cast; omega
      rw [if_neg hlt]
      rfl
    · intro hk
      have hlt : (k : Int) < ((4 : Nat) : Int) - 1 - 2 * 1 := by
        push_cast; omega
      rw [if_pos hlt]
      have hk0 : (k + 1) % 256 = k + 1 := by omega
      simp only [Option.map_some', hk0]
  · simp only [if_neg hw]
    constructor
    · intro hk
      have hlt : ¬ ((k : Int) < ((4 : Nat) : Int) - 1 - 2 * 0) := by
        push_cast; omega
      rw [if_neg hlt]
      rfl
    · intro hk
      have hlt : (k : Int) < ((4 : Nat) : Int) - 1 - 2 * 0 := by
        push_cast; omega
      rw [if_pos hlt]
      have hk0 : (k + 1) % 256 = k + 1 := by omega
      simp only [Option.map_some', hk0]

/-- Witness for C14: the wind-force source at its last position 1, and a linear
source at position 1 of 0..3. -/
theorem C14_advance_cursor_or_result_witness :
    sailing_conversions_face_loop ⟨EVENT_LIGHT_BUTTON_UP, 0⟩ ⟨3, 0, 3, 0, 200, 1, true⟩ =
        some ⟨4, 0, 3, 0, 200, 1, false⟩ ∧
      sailing_conversions_face_loop ⟨EVENT_LIGHT_BUTTON_UP, 0⟩ ⟨3, 0, 0, 1, 1900, 1, true⟩ =
        some ⟨3, 0, 0, 1, 1900, 2, false⟩ :=
  ⟨(C14_advance_cursor_or_result ⟨EVENT_LIGHT_BUTTON_UP, 0⟩ ⟨3, 0, 3, 0, 200, 1, true⟩
      rfl rfl).1 (by decide),
   (C14_advance_cursor_or_result ⟨EVENT_LIGHT_BUTTON_UP, 0⟩ ⟨3, 0, 0, 1, 1900, 1, true⟩
      rfl rfl).2 (by decide)⟩

/-- C15: on the CategorySelect page one alarm button up changes the category index
`i` to `(i + 1) % 2` (and clears the hold flag, nothing else); for a category index
in range (0 or 1), `MEASURES_COUNT` = 2 of them in a row bring the category index
back to its starting value. -/
theorem C15_category_cycle (e : movement_event_t) (s : sailing_conversions_state_t)
    (he : e.event_type = EVENT_ALARM_BUTTON_UP) (hp : s.pg = sailing_measurement) :
    sailing_conversions_face_loop e s =
        some { s with measurement_i := (s.measurement_i + 1) % 2, alarm_held := false } ∧
      (s.measurement_i < MEASURES_COUNT →
        run (List.replicate MEASURES_COUNT e) s =
          some { s with alarm_held := false }) := by
  obtain ⟨ty, subsec⟩ := e
  obtain ⟨pg, m, f, t, v, k, held⟩ := s
  simp only at he hp
  subst he hp
  have h1 : ∀ (m : Nat) (held : Bool),
      sailing_conversions_face_loop ⟨EVENT_ALARM_BUTTON_UP, subsec⟩
          ⟨sailing_measurement, m, f, t, v, k, held⟩ =
        some ⟨sailing_measurement, (m + 1) % 2, f, t, v, k, false⟩ := by
    intro m held
    have hm : (m + 1) % 256 % 2 = (m + 1) % 2 := by omega
    simp [sailing_conversions_face_loop, alarm_button_up, sailing_measurement,
      increment_wrapping, MEASURES_COUNT, hm]
  refine ⟨h1 m held, ?_⟩
  intro hm
  simp only [MEASURES_COUNT] at hm
  have hm2 : ((m + 1) % 2 + 1) % 2 = m := by omega
  simp only [MEASURES_COUNT, List.replicate, run, h1, Option.some_bind, hm2]

/-- Witness for C15: starting from Distance on the CategorySelect page. -/
theorem C15_category_cycle_witness :
    sailing_conversions_face_loop ⟨EVENT_ALARM_BUTTON_UP, 0⟩ ⟨0, 1, 0, 0, 0, 0, false⟩ =
        some ⟨0, 0, 0, 0, 0, 0, false⟩ ∧
      run (List.replicate MEASURES_COUNT ⟨EVENT_ALARM_BUTTON_UP, 0⟩)
          ⟨0, 1, 0, 0, 0, 0, false⟩ =
        some ⟨0, 1, 0, 0, 0, 0, false⟩ :=
  have h := C15_category_cycle ⟨EVENT_ALARM_BUTTON_UP, 0⟩ ⟨0, 1, 0, 0, 0, 0, false⟩ rfl rfl
  ⟨h.1, h.2 (by decide)⟩

/-- C16: a tick on the ValueInput page with the hold flag set and an odd sub-second
counter does what `increment_input` does at the current cursor, which changes
nothing but the entered value (and succeeds for a value in 0..9999 and a cursor in
0..3); every other tick leaves the state unchanged. -/
theorem C16_tick_repeats_increment (e : movement_event_t)
    (s : sailing_conversions_state_t) (he : e.event_type = EVENT_TICK) :
    (s.pg = sailing_input ∧ s.alarm_held = true ∧ e.subsecond % 2 = 1 →
      sailing_conversions_face_loop e s = increment_input s ∧
      (∀ t, increment_input s = some t → t = { s with selection_value := t.selection_value }) ∧
      (s.selection_value ≤ 9999 → s.selection_index ≤ 3 →
        ∃ v, sailing_conversions_face_loop e s = some { s with selection_value := v })) ∧
    (¬ (s.pg = sailing_input ∧ s.alarm_held = true ∧ e.subsecond % 2 = 1) →
      sailing_conversions_face_loop e s = some s) := by
  obtain ⟨ty, subsec⟩ := e
  simp only at he
  subst he
  constructor
  · rintro ⟨hpg, hheld, hodd⟩
    simp only at hodd
    have hloop : sailing_conversions_face_loop ⟨EVENT_TICK, subsec⟩ s = increment_input s := by
      have hc : s.alarm_held = true ∧ subsec % 2 ≠ 0 := ⟨hheld, by omega⟩
      simp only [sailing_conversions_face_loop, if_pos hpg, if_pos hc]
    refine ⟨hloop, ?_, ?_⟩
    · intro t ht
      unfold increment_input at ht
      simp only at ht
      split_ifs at ht <;> simp only [Option.some.injEq] at ht <;> rw [← ht]
    · intro hv hk
      exact ⟨_, hloop.trans (increment_input_value s hv hk)⟩
  · intro hn
    simp only at hn
    simp only [sailing_conversions_face_loop]
    by_cases hpg : s.pg = sailing_input
    · rw [if_pos hpg]
      have hc : ¬ (s.alarm_held = true ∧ subsec % 2 ≠ 0) := by
        rintro ⟨hheld, hodd⟩
        exact hn ⟨hpg, hheld, by omega⟩
      rw [if_neg hc]
    · rw [if_neg hpg]

/-- Witness for C16: the hold flag set, cursor on the hundreds digit, odd tick; and
the same state at an even tick. -/
theorem C16_tick_repeats_increment_witness :
    sailing_conversions_face_loop ⟨EVENT_TICK, 1⟩ ⟨3, 0, 0, 1, 1939, 1, true⟩ =
        increment_input ⟨3, 0, 0, 1, 1939, 1, true⟩ ∧
      sailing_conversions_face_loop ⟨EVENT_TICK, 2⟩ ⟨3, 0, 0, 1, 1939, 1, true⟩ =
        some ⟨3, 0, 0, 1, 1939, 1, true⟩ :=
  ⟨((C16_tick_repeats_increment ⟨EVENT_TICK, 1⟩ ⟨3, 0, 0, 1, 1939, 1, true⟩ rfl).1
      ⟨rfl, rfl, rfl⟩).1,
   (C16_tick_repeats_increment ⟨EVENT_TICK, 2⟩ ⟨3, 0, 0, 1, 1939, 1, true⟩ rfl).2
      (by decide)⟩

/-! ## Range of the output for values of the digit editor -/

theorem rpow_three_halves_le (x : ℝ) (h0 : 0 ≤ x) (h1 : x ≤ 10000) :
    0 ≤ x ^ ((3 : ℝ) / 2) ∧ x ^ ((3 : ℝ) / 2) ≤ 1000000 := by
  refine ⟨Real.rpow_nonneg h0 _, ?_⟩
  have hmono : x ^ ((3 : ℝ) / 2) ≤ (10000 : ℝ) ^ ((3 : ℝ) / 2) :=
    Real.rpow_le_rpow h0 h1 (by norm_num)
  have hval : (10000 : ℝ) ^ ((3 : ℝ) / 2) = 1000000 := by
    have h100 : (10000 : ℝ) = (100 : ℝ) ^ ((2 : Nat) : ℝ) := by
      rw [Real.rpow_natCast]; norm_num
    rw [h100, ← Real.rpow_mul (by norm_num)]
    have h3 : ((2 : Nat) : ℝ) * ((3 : ℝ) / 2) = ((3 : Nat) : ℝ) := by norm_num
    rw [h3, Real.rpow_natCast]
    norm_num
  linarith

theorem rpow_two_thirds_le (x : ℝ) (h0 : 0 ≤ x) (h1 : x ≤ 1000000) :
    0 ≤ x ^ ((2 : ℝ) / 3) ∧ x ^ ((2 : ℝ) / 3) ≤ 10000 := by
  refine ⟨Real.rpow_nonneg h0 _, ?_⟩
  have hmono : x ^ ((2 : ℝ) / 3) ≤ (1000000 : ℝ) ^ ((2 : ℝ) / 3) :=
    Real.rpow_le_rpow h0 h1 (by norm_num)
  have hval : (1000000 : ℝ) ^ ((2 : ℝ) / 3) = 10000 := by
    have h100 : (1000000 : ℝ) = (100 : ℝ) ^ ((3 : Nat) : ℝ) := by
      rw [Real.rpow_natCast]; norm_num
    rw [h100, ← Real.rpow_mul (by norm_num)]
    have h3 : ((3 : Nat) : ℝ) * ((2 : ℝ) / 3) = ((2 : Nat) : ℝ) := by norm_num
    rw [h3, Real.rpow_natCast]
    norm_num
  linarith

/-- An accurate `pow` value is non-negative and at most 1.001 times any bound of
the real power. -/
theorem pow_accurate_bounds (pow : ℚ → ℚ → ℚ) (x y B : ℚ)
    (h : pow_accurate pow x y) (h0 : 0 ≤ (x : ℝ) ^ (y : ℝ))
    (h1 : (x : ℝ) ^ (y : ℝ) ≤ (B : ℝ)) :
    0 ≤ pow x y ∧ pow x y ≤ B * 1001 / 1000 := by
  unfold pow_accurate at h
  obtain ⟨hl, hu⟩ := abs_le.mp h
  have r0 : (0 : ℝ) ≤ ((pow x y : ℚ) : ℝ) := by linarith
  have r1 : ((pow x y : ℚ) : ℝ) ≤ ((B * 1001 / 1000 : ℚ) : ℝ) := by
    push_cast; linarith
  exact ⟨by exact_mod_cast r0, by exact_mod_cast r1⟩

theorem conversion_from_wind_force (pow : ℚ → ℚ → ℚ) (pg t v k : Nat) (held : Bool)
    (ht : t < 3) :
    ∃ ft : ℚ, 5 / 18 ≤ ft ∧
      conversion pow ⟨pg, 0, 3, t, v, k, held⟩ =
        some (836 / 1000 * pow v (3 / 2) / 10, 836 / 1000 * pow v (3 / 2) / 10 / ft) := by
  have hf : (get_unit_list 0)[3]? = some (⟨" bft", 1, 0⟩ : sailing_unit) := rfl
  interval_cases t
  · refine ⟨1, by norm_num, ?_⟩
    have ht : (get_unit_list 0)[0]? = some (⟨" n&/s", 1, 0⟩ : sailing_unit) := rfl
    unfold conversion
    simp only [hf, ht]
    norm_num [SPEED]
  · refine ⟨1000 / 3600, by norm_num, ?_⟩
    have ht : (get_unit_list 0)[1]? = some (⟨"kn&/h", 1000 / 3600, 0⟩ : sailing_unit) := rfl
    unfold conversion
    simp only [hf, ht]
    norm_num [SPEED]
  · refine ⟨1852 / 3600, by norm_num, ?_⟩
    have ht : (get_unit_list 0)[2]? = some (⟨"  kn", 1852 / 3600, 0⟩ : sailing_unit) := rfl
    unfold conversion
    simp only [hf, ht]
    norm_num [SPEED]

theorem conversion_to_wind_force (pow : ℚ → ℚ → ℚ) (pg f v k : Nat) (held : Bool)
    (hf : f < 3) :
    ∃ ff : ℚ, 0 < ff ∧ ff ≤ 1 ∧
      conversion pow ⟨pg, 0, f, 3, v, k, held⟩ =
        some ((v : ℚ) * ff, 112684 / 100000 * pow ((v : ℚ) * ff * 10) (2 / 3)) := by
  have ht : (get_unit_list 0)[3]? = some (⟨" bft", 1, 0⟩ : sailing_unit) := rfl
  interval_cases f
  · refine ⟨1, by norm_num, by norm_num, ?_⟩
    have hf : (get_unit_list 0)[0]? = some (⟨" n&/s", 1, 0⟩ : sailing_unit) := rfl
    unfold conversion
    simp only [hf, ht]
    norm_num [SPEED]
  · refine ⟨1000 / 3600, by norm_num, by norm_num, ?_⟩
    have hf : (get_unit_list 0)[1]? = some (⟨"kn&/h", 1000 / 3600, 0⟩ : sailing_unit) := rfl
    unfold conversion
    simp only [hf, ht]
    norm_num [SPEED]
  · refine ⟨1852 / 3600, by norm_num, by norm_num, ?_⟩
    have hf : (get_unit_list 0)[2]? = some (⟨"  kn", 1852 / 3600, 0⟩ : sailing_unit) := rfl
    unfold conversion
    simp only [hf, ht]
    norm_num [SPEED]

theorem conversion_linear_in_range (pow : ℚ → ℚ → ℚ) (s : sailing_conversions_state_t)
    (count : Nat)
    (hcount : sailing_units_count[s.measurement_i]? = some count)
    (hi : s.from_i < count) (hj : s.to_i < count)
    (li : ¬ (s.measurement_i = SPEED ∧ s.from_i = 3))
    (lj : ¬ (s.measurement_i = SPEED ∧ s.to_i = 3))
    (hv : s.selection_value ≤ 9999) :
    ∃ b c, conversion pow s = some (b, c) ∧ 0 ≤ c ∧ c < 1000000 := by
  obtain ⟨froms, tos, hf, ht, of0, ot0, hfi, hfj, _, hle2, _⟩ :=
    linear_units_facts s.measurement_i s.from_i s.to_i count hcount hi hj li lj
  have hvq : (s.selection_value : ℚ) ≤ 9999 := by exact_mod_cast hv
  have hv0 : (0 : ℚ) ≤ (s.selection_value : ℚ) := Nat.cast_nonneg _
  have hform : ((s.selection_value : ℚ) * froms.conv_factor + 100 * froms.linear_factor
      - 100 * tos.linear_factor) / tos.conv_factor
      = (s.selection_value : ℚ) * froms.conv_factor / tos.conv_factor := by
    rw [of0, ot0]; simp
  refine ⟨_, _, conversion_linear pow s froms tos hf ht li lj, ?_, ?_⟩
  · rw [hform]
    exact div_nonneg (mul_nonneg hv0 hfi.le) hfj.le
  · rw [hform, div_lt_iff₀ hfj]
    nlinarith

/-- C17: for in-range, distinct source and target units (the wind-force unit
included) and an entered value in 0..9999, provided `pow` is within a relative
error of 1/1000 of the real power at the arguments the conversion passes to it,
the computed output lies in [0, 1000000), and the result page shows a number and
not the error outcome. -/
theorem C17_output_always_in_range (pow : ℚ → ℚ → ℚ) (sound : Bool)
    (s : sailing_conversions_state_t) (subsec count : Nat)
    (hpg : s.pg = sailing_result)
    (hcount : sailing_units_count[s.measurement_i]? = some count)
    (hi : s.from_i < count) (hj : s.to_i < count) (hne : s.from_i ≠ s.to_i)
    (hv : s.selection_value ≤ 9999)
    (h32 : s.measurement_i = SPEED → s.from_i = 3 →
      pow_accurate pow s.selection_value (3 / 2))
    (h23 : s.measurement_i = SPEED → s.to_i = 3 →
      ∀ b c, conversion pow s = some (b, c) → pow_accurate pow (b * 10) (2 / 3)) :
    ∃ b c l r, conversion pow s = some (b, c) ∧ 0 ≤ c ∧ c < 1000000 ∧
      display pow sound s subsec = some l ∧ l.bell = false ∧
      l.bottom ≠ bottom_text.error ∧ shown_number l = some r := by
  have hconv : ∃ b c, conversion pow s = some (b, c) ∧ 0 ≤ c ∧ c < 1000000 := by
    by_cases li : s.measurement_i = SPEED ∧ s.from_i = 3
    · -- wind-force source
      obtain ⟨pg, m, f, t, v, k, held⟩ := s
      simp only [SPEED] at li hne hj hv h32 ⊢
      obtain ⟨rfl, rfl⟩ := li
      have hcnt : count = 4 := by
        rcases units_count_cases 0 count hcount with ⟨_, h⟩ | ⟨h, _⟩
        · exact h
        · exact absurd h (by decide)
      have ht3 : t < 3 := by omega
      obtain ⟨ft, hft, hc⟩ := conversion_from_wind_force pow pg t v k held ht3
      have hacc := h32 rfl rfl
      have hvr : ((v : ℚ) : ℝ) ≤ 10000 := by
        have : (v : ℝ) ≤ 9999 := by exact_mod_cast hv
        push_cast; linarith
      have hv0 : (0 : ℝ) ≤ ((v : ℚ) : ℝ) := by push_cast; exact Nat.cast_nonneg _
      have hexp : (((3 / 2 : ℚ)) : ℝ) = (3 : ℝ) / 2 := by push_cast; rfl
      obtain ⟨hr0, hr1⟩ := rpow_three_halves_le _ hv0 hvr
      obtain ⟨hp0, hp1⟩ := pow_accurate_bounds pow v (3 / 2) 1000000 hacc
        (by rw [hexp]; exact hr0) (by rw [hexp]; push_cast; push_cast at hr1; exact hr1)
      have hftpos : (0 : ℚ) < ft := by linarith
      refine ⟨_, _, hc, ?_, ?_⟩
      · apply div_nonneg _ hftpos.le
        linarith
      · rw [div_lt_iff₀ hftpos]
        nlinarith
    · by_cases lj : s.measurement_i = SPEED ∧ s.to_i = 3
      · -- wind-force target
        obtain ⟨pg, m, f, t, v, k, held⟩ := s
        simp only [SPEED] at li lj hne hi hv h23 ⊢
        obtain ⟨rfl, rfl⟩ := lj
        have hcnt : count = 4 := by
          rcases units_count_cases 0 count hcount with ⟨_, h⟩ | ⟨h, _⟩
          · exact h
          · exact absurd h (by decide)
        have hf3 : f < 3 := by omega
        obtain ⟨ff, hff0, hff1, hc⟩ := conversion_to_wind_force pow pg f v k held hf3
        have hacc := h23 rfl rfl _ _ hc
        have hvq : (v : ℚ) ≤ 9999 := by exact_mod_cast hv
        have hvq0 : (0 : ℚ) ≤ (v : ℚ) := Nat.cast_nonneg _
        have hx0 : (0 : ℚ) ≤ (v : ℚ) * ff * 10 := by positivity
        have hx1 : (v : ℚ) * ff * 10 ≤ 1000000 := by nlinarith
        have hx0r : (0 : ℝ) ≤ (((v : ℚ) * ff * 10 : ℚ) : ℝ) := by exact_mod_cast hx0
        have hx1r : (((v : ℚ) * ff * 10 : ℚ) : ℝ) ≤ 1000000 := by exact_mod_cast hx1
        have hexp : (((2 / 3 : ℚ)) : ℝ) = (2 : ℝ) / 3 := by push_cast; rfl
        obtain ⟨hr0, hr1⟩ := rpow_two_thirds_le _ hx0r hx1r
        obtain ⟨hp0, hp1⟩ := pow_accurate_bounds pow ((v : ℚ) * ff * 10) (2 / 3) 10000 hacc
          (by rw [hexp]; exact hr0) (by rw [hexp]; push_cast; push_cast at hr1; exact hr1)
        refine ⟨_, _, hc, ?_, ?_⟩
        · linarith
        · linarith
      · exact conversion_linear_in_range pow s count hcount hi hj li lj hv
  obtain ⟨b, c, hc, h0, h1⟩ := hconv
  obtain ⟨l, hl, hbell, hbot, _⟩ := display_result_in_range pow sound s b c hc h0 h1
  refine ⟨b, c, l, to_uint32 (c + 1 / 2), hc, h0, h1, ?_, hbell, ?_, ?_⟩
  · rw [display_result_page pow sound s subsec hpg, hl]
  · rw [hbot]; simp
  · unfold shown_number
    rw [hbot]

theorem rpow_thousand_three_halves_bounds :
    (31622 : ℝ) < (1000 : ℝ) ^ ((3 : ℝ) / 2) ∧ (1000 : ℝ) ^ ((3 : ℝ) / 2) < (31623 : ℝ) := by
  have hpos : (0 : ℝ) < (1000 : ℝ) ^ ((3 : ℝ) / 2) := Real.rpow_pos_of_pos (by norm_num) _
  have hsq : ((1000 : ℝ) ^ ((3 : ℝ) / 2)) ^ 2 = 1000000000 := by
    rw [← Real.rpow_natCast, ← Real.rpow_mul (by norm_num)]
    have h3 : (3 : ℝ) / 2 * ((2 : Nat) : ℝ) = ((3 : Nat) : ℝ) := by norm_num
    rw [h3, Real.rpow_natCast]
    norm_num
  constructor
  · by_contra h
    push_neg at h
    nlinarith
  · by_contra h
    push_neg at h
    nlinarith

/-- Witness for C17: Speed, wind-force unit to unit 1, entered value 1000, with a
`pow` whose value at (1000, 3/2) is 31623. -/
theorem C17_output_always_in_range_witness :
    ∃ b c l r, conversion (fun _ _ => 31623) ⟨4, 0, 3, 1, 1000, 1, false⟩ = some (b, c) ∧
      0 ≤ c ∧ c < 1000000 ∧
      display (fun _ _ => 31623) true ⟨4, 0, 3, 1, 1000, 1, false⟩ 0 = some l ∧
      l.bell = false ∧ l.bottom ≠ bottom_text.error ∧ shown_number l = some r :=
  C17_output_always_in_range (fun _ _ => 31623) true ⟨4, 0, 3, 1, 1000, 1, false⟩ 0 4
    rfl rfl (by decide) (by decide) (by decide) (by decide)
    (fun _ _ => by
      obtain ⟨hb1, hb2⟩ := rpow_thousand_three_halves_bounds
      unfold pow_accurate
      have hexp : (((3 / 2 : ℚ)) : ℝ) = (3 : ℝ) / 2 := by push_cast; rfl
      have hx : ((((1000 : Nat) : ℚ)) : ℝ) = (1000 : ℝ) := by push_cast; rfl
      simp only [hexp, hx]
      rw [abs_le]
      push_cast
      constructor <;> linarith)
    (fun _ h => absurd h (by decide))

/-! ## Further claims on the reachable states and on target cycling -/

/-- C18: in every state reachable from the reset state, if the category is Speed and
the source unit is the wind-force unit (index 3) then the entered value is a
multiple of 100. -/
theorem C18_wind_force_value_multiple_of_100 (s : sailing_conversions_state_t)
    (hr : Reachable s) (hm : s.measurement_i = SPEED) (hf : s.from_i = 3) :
    s.selection_value % 100 = 0 ∧ 100 ∣ s.selection_value := by
  have h := inv_of_reachable s hr
  have h100 := (h.wind_force hm hf).2
  exact ⟨h100, Nat.dvd_of_mod_eq_zero h100⟩

/-- Witness for C18: the wind-force source on the ValueInput page after two digit
increments at the second cursor position. -/
theorem C18_wind_force_value_multiple_of_100_witness :
    Reachable ⟨3, 0, 3, 0, 200, 1, false⟩ ∧ 200 % 100 = 0 ∧ 100 ∣ 200 :=
  have hr : Reachable ⟨3, 0, 3, 0, 200, 1, false⟩ :=
    reachable_run
      [⟨EVENT_LIGHT_BUTTON_UP, 0⟩, ⟨EVENT_ALARM_BUTTON_UP, 0⟩, ⟨EVENT_ALARM_BUTTON_UP, 0⟩,
       ⟨EVENT_ALARM_BUTTON_UP, 0⟩, ⟨EVENT_LIGHT_BUTTON_UP, 0⟩, ⟨EVENT_LIGHT_BUTTON_UP, 0⟩,
       ⟨EVENT_LIGHT_BUTTON_UP, 0⟩, ⟨EVENT_ALARM_BUTTON_UP, 0⟩, ⟨EVENT_ALARM_BUTTON_UP, 0⟩]
      _ _ (Reachable.reset ⟨0, 0, 0, 0, 0, 0, false⟩) rfl
  ⟨hr, C18_wind_force_value_multiple_of_100 ⟨3, 0, 3, 0, 200, 1, false⟩ hr rfl rfl⟩

theorem alarm_button_up_on_target (s : sailing_conversions_state_t) (n : Nat)
    (hp : s.pg = sailing_to) (hn : sailing_units_count[s.measurement_i]? = some n)
    (hpos : 0 < n) :
    alarm_button_up s =
      some { s with to_i := next_target n s.from_i s.to_i, alarm_held := false } := by
  obtain ⟨pg, m, f, t, v, k, held⟩ := s
  simp only at hp hn ⊢
  subst hp
  have hn0 : ¬ n = 0 := by omega
  simp only [alarm_button_up, sailing_to, hn, Option.some_bind, increment_wrapping,
    if_neg hn0, next_target]
  split_ifs <;> rfl

theorem run_alarm_on_target (subsec : Nat) (n k : Nat) (s : sailing_conversions_state_t)
    (hp : s.pg = sailing_to) (hn : sailing_units_count[s.measurement_i]? = some n)
    (hpos : 0 < n) :
    run (List.replicate (k + 1) ⟨EVENT_ALARM_BUTTON_UP, subsec⟩) s =
      some { s with to_i := (next_target n s.from_i)^[k + 1] s.to_i, alarm_held := false } := by
  induction k generalizing s with
  | zero =>
    simp only [List.replicate, run, sailing_conversions_face_loop,
      alarm_button_up_on_target s n hp hn hpos, Option.some_bind, Function.iterate_succ,
      Function.iterate_zero, Function.comp_apply, id_eq]
  | succ k ih =>
    rw [List.replicate_succ, run]
    simp only [sailing_conversions_face_loop, alarm_button_up_on_target s n hp hn hpos,
      Option.some_bind]
    rw [ih ⟨s.pg, s.measurement_i, s.from_i, next_target n s.from_i s.to_i,
      s.selection_value, s.selection_index, false⟩ hp hn]
    simp only [Function.iterate_succ, Function.comp_apply]

theorem visited_targets_on_target (n k : Nat) (s : sailing_conversions_state_t)
    (hp : s.pg = sailing_to) (hn : sailing_units_count[s.measurement_i]? = some n)
    (hpos : 0 < n) :
    visited_targets k s =
      (List.range k).map fun j => (next_target n s.from_i)^[j + 1] s.to_i := by
  induction k generalizing s with
  | zero => rfl
  | succ k ih =>
    rw [visited_targets, alarm_button_up_on_target s n hp hn hpos]
    simp only
    rw [ih ⟨s.pg, s.measurement_i, s.from_i, next_target n s.from_i s.to_i,
      s.selection_value, s.selection_index, false⟩ hp hn,
      List.range_succ_eq_map, List.map_cons, List.map_map]
    simp only [Function.iterate_succ, Function.comp_apply, Function.iterate_zero, id_eq]
    rfl

/-- C19: on the TargetUnit page, with source and target in range and different, in a
category with `n` units: `n - 1` alarm button ups in a row bring the target index
back to its starting value (changing nothing but clearing the hold flag), and the
targets selected on the way are `n - 1` different indices, namely exactly the unit
indices other than the source. -/
theorem C19_target_cycle_skips_source (e : movement_event_t)
    (s : sailing_conversions_state_t) (n : Nat)
    (he : e.event_type = EVENT_ALARM_BUTTON_UP) (hp : s.pg = sailing_to)
    (hn : sailing_units_count[s.measurement_i]? = some n)
    (hi : s.from_i < n) (hj : s.to_i < n) (hne : s.from_i ≠ s.to_i) :
    run (List.replicate (n - 1) e) s = some { s with alarm_held := false } ∧
      (visited_targets (n - 1) s).length = n - 1 ∧
      (visited_targets (n - 1) s).Nodup ∧
      ∀ i, i ∈ visited_targets (n - 1) s ↔ (i < n ∧ i ≠ s.from_i) := by
  obtain ⟨ty, subsec⟩ := e
  simp only at he
  subst he
  have hcases := units_count_cases s.measurement_i n hn
  have hpos : 0 < n := by omega
  have hrun := run_alarm_on_target subsec n (n - 2) s hp hn hpos
  have hvis := visited_targets_on_target n (n - 1) s hp hn hpos
  have hn2 : n - 2 + 1 = n - 1 := by omega
  rw [hn2] at hrun
  rw [hrun, hvis]
  obtain ⟨pg, m, f, t, v, k, held⟩ := s
  simp only at hi hj hne hcases ⊢
  rcases hcases with ⟨rfl, rfl⟩ | ⟨rfl, rfl⟩
  · interval_cases f <;> interval_cases t <;>
      first
      | exact absurd rfl hne
      | (refine ⟨rfl, rfl, by decide, ?_⟩
         intro i
         simp [List.range_succ, next_target]
         omega)
  · interval_cases f <;> interval_cases t <;>
      first
      | exact absurd rfl hne
      | (refine ⟨rfl, rfl, by decide, ?_⟩
         intro i
         simp [List.range_succ, next_target]
         omega)

/-- Witness for C19: Speed (4 units), source 1, target 3; three alarm button ups
select 0, 2 and 3 again. -/
theorem C19_target_cycle_skips_source_witness :
    run (List.replicate (4 - 1) ⟨EVENT_ALARM_BUTTON_UP, 0⟩) ⟨2, 0, 1, 3, 0, 0, false⟩ =
        some ⟨2, 0, 1, 3, 0, 0, false⟩ ∧
      (visited_targets (4 - 1) ⟨2, 0, 1, 3, 0, 0, false⟩).length = 4 - 1 ∧
      (visited_targets (4 - 1) ⟨2, 0, 1, 3, 0, 0, false⟩).Nodup ∧
      ∀ i, i ∈ visited_targets (4 - 1) ⟨2, 0, 1, 3, 0, 0, false⟩ ↔ (i < 4 ∧ i ≠ 1) :=
  C19_target_cycle_skips_source ⟨EVENT_ALARM_BUTTON_UP, 0⟩ ⟨2, 0, 1, 3, 0, 0, false⟩ 4
    rfl rfl rfl (by decide) (by decide) (by decide)

theorem loop_page_change_clears_hold (e : movement_event_t)
    (s t : sailing_conversions_state_t)
    (h : sailing_conversions_face_loop e s = some t) (hpg : t.pg ≠ s.pg) :
    t.alarm_held = false := by
  obtain ⟨ty, subsec⟩ := e
  cases ty <;> simp only [sailing_conversions_face_loop] at h
  case EVENT_ACTIVATE => cases h; exact absurd rfl hpg
  case EVENT_TICK =>
    split_ifs at h
    · unfold increment_input at h
      simp only at h
      split_ifs at h <;> cases h <;> exact absurd rfl hpg
    · cases h; exact absurd rfl hpg
    · cases h; exact absurd rfl hpg
  case EVENT_ALARM_BUTTON_UP =>
    unfold alarm_button_up at h
    simp only [Option.map_eq_some'] at h
    obtain ⟨u, _, rfl⟩ := h
    rfl
  case EVENT_LIGHT_BUTTON_DOWN => cases h; exact absurd rfl hpg
  case EVENT_LIGHT_BUTTON_UP =>
    unfold light_button_up at h
    simp only [Option.map_eq_some'] at h
    obtain ⟨u, _, rfl⟩ := h
    rfl
  case EVENT_LIGHT_LONG_PRESS =>
    simp only [Option.some.injEq] at h
    subst h
    unfold light_long_press at hpg ⊢
    split_ifs at hpg ⊢
    · rfl
    · exact absurd rfl hpg
  case EVENT_ALARM_LONG_PRESS =>
    split_ifs at h <;> cases h <;> exact absurd rfl hpg
  case EVENT_ALARM_LONG_UP => cases h; rfl
  case EVENT_TIMEOUT => cases h; exact absurd rfl hpg
  case EVENT_OTHER => cases h; exact absurd rfl hpg

theorem loop_hold_set_only_on_input (e : movement_event_t)
    (s t : sailing_conversions_state_t)
    (h : sailing_conversions_face_loop e s = some t)
    (h0 : s.alarm_held = false) (h1 : t.alarm_held = true) :
    e.event_type = EVENT_ALARM_LONG_PRESS ∧ s.pg = sailing_input ∧ t.pg = sailing_input := by
  obtain ⟨ty, subsec⟩ := e
  cases ty <;> simp only [sailing_conversions_face_loop] at h
  case EVENT_ACTIVATE => cases h; rw [h0] at h1; cases h1
  case EVENT_TICK =>
    split_ifs at h
    · unfold increment_input at h
      simp only at h
      split_ifs at h <;> cases h <;> (rw [h0] at h1; cases h1)
    · cases h; rw [h0] at h1; cases h1
    · cases h; rw [h0] at h1; cases h1
  case EVENT_ALARM_BUTTON_UP =>
    unfold alarm_button_up at h
    simp only [Option.map_eq_some'] at h
    obtain ⟨u, _, rfl⟩ := h
    cases h1
  case EVENT_LIGHT_BUTTON_DOWN => cases h; rw [h0] at h1; cases h1
  case EVENT_LIGHT_BUTTON_UP =>
    unfold light_button_up at h
    simp only [Option.map_eq_some'] at h
    obtain ⟨u, _, rfl⟩ := h
    cases h1
  case EVENT_LIGHT_LONG_PRESS =>
    simp only [Option.some.injEq] at h
    subst h
    unfold light_long_press at h1
    split_ifs at h1
    rw [h0] at h1
    cases h1
  case EVENT_ALARM_LONG_PRESS =>
    split_ifs at h with hp
    · cases h
      exact ⟨rfl, hp, hp⟩
    · cases h; rw [h0] at h1; cases h1
  case EVENT_ALARM_LONG_UP => cases h; cases h1
  case EVENT_TIMEOUT => cases h; rw [h0] at h1; cases h1
  case EVENT_OTHER => cases h; rw [h0] at h1; cases h1

/-- C20: in every state reachable from the reset state the hold flag is true only
while the page is ValueInput; from such a state every event that changes the page
leaves the flag cleared, and an event that turns the flag from false to true is
the alarm long press on the ValueInput page, which stays on that page. -/
theorem C20_hold_flag_only_on_value_input (s : sailing_conversions_state_t)
    (hr : Reachable s) :
    (s.alarm_held = true → s.pg = sailing_input) ∧
      (∀ (e : movement_event_t) (t : sailing_conversions_state_t),
        sailing_conversions_face_loop e s = some t → t.pg ≠ s.pg → t.alarm_held = false) ∧
      (∀ (e : movement_event_t) (t : sailing_conversions_state_t),
        sailing_conversions_face_loop e s = some t → s.alarm_held = false →
        t.alarm_held = true →
        e.event_type = EVENT_ALARM_LONG_PRESS ∧ s.pg = sailing_input ∧
          t.pg = sailing_input) := by
  have h := inv_of_reachable s hr
  exact ⟨h.held_page, fun e t => loop_page_change_clears_hold e s t,
    fun e t => loop_hold_set_only_on_input e s t⟩

/-- Witness for C20: the ValueInput page with the hold flag set by an alarm long
press. -/
theorem C20_hold_flag_only_on_value_input_witness :
    Reachable ⟨3, 0, 0, 1, 0, 0, true⟩ ∧
      ((⟨3, 0, 0, 1, 0, 0, true⟩ : sailing_conversions_state_t).alarm_held = true →
        (⟨3, 0, 0, 1, 0, 0, true⟩ : sailing_conversions_state_t).pg = sailing_input) :=
  have hr : Reachable ⟨3, 0, 0, 1, 0, 0, true⟩ :=
    reachable_run
      [⟨EVENT_LIGHT_BUTTON_UP, 0⟩, ⟨EVENT_LIGHT_BUTTON_UP, 0⟩, ⟨EVENT_LIGHT_BUTTON_UP, 0⟩,
       ⟨EVENT_ALARM_LONG_PRESS, 0⟩]
      _ _ (Reachable.reset ⟨0, 0, 0, 0, 0, 0, false⟩) rfl
  ⟨hr, (C20_hold_flag_only_on_value_input ⟨3, 0, 0, 1, 0, 0, true⟩ hr).1⟩

/-! ## The buffer of `sprintf` on the result page -/

theorem sprintf_size_04u_le (v : Nat) : sprintf_size 2 4 v ≤ 7 ↔ v ≤ 9999 := by
  unfold sprintf_size
  by_cases hv : v = 0
  · subst hv
    simp
  · have h := Nat.lt_pow_iff_log_lt (b := 10) (by norm_num) (x := 4) hv
    have h4 : (10 : Nat) ^ 4 = 10000 := by norm_num
    rw [h4] at h
    constructor
    · intro hle
      have : Nat.log 10 v < 4 := by omega
      have := h.mpr this
      omega
    · intro hle
      have : Nat.log 10 v < 4 := h.mp (by omega)
      omega

/-- On the input page of a state that satisfies the invariant the entered value has
at most four digits, so `sprintf(buf, "  %04u", ...)` stays within `char buf[7]`. -/
theorem display_within_buf_input (pow : ℚ → ℚ → ℚ) (sound : Bool)
    (s : sailing_conversions_state_t) (subsec : Nat) (h : Inv s)
    (hpg : s.pg = sailing_input) :
    ∃ l, display pow sound s subsec = some l ∧
      display_within_buf pow sound s subsec = some l := by
  have hfit := (sprintf_size_04u_le s.selection_value).mpr h.value_le
  unfold display_within_buf display
  rw [hpg]
  simp only [sailing_input]
  exact ⟨_, rfl, by rw [if_pos hfit]⟩
end SailingConversions
